import Mathlib

/-
  Verification development for the Big-Pi late-reverb core.

  Shallow embedding of the C++ sources:
    src/dsp/common/Dsp.h        (clampf, killDenorm, one-pole filters,
                                 envelope follower, allpass, delay line,
                                 MultiLFO, softSat, SmoothNoise)
    src/dsp/tail/Matrices.h/.cpp (hadamardMix, householderMix, mix)
    src/dsp/tail/Tank.h/.cpp     (Tank: config, decay gains, processing)
    Source/ReverbCore/TapPatterns.cpp (renderTapPattern)
    Diffusion.h/.cpp             (input / late allpass diffusion)

  Floats are modelled as exact rationals; the transcendental library
  functions the code calls (std::exp, std::log, std::sin, std::tanh,
  std::pow, std::sqrt) are modelled by an uninterpreted record of
  functions `Prims`, so every theorem quantified over a `Prims` holds
  for the real transcendental functions in particular.  Fixed-size
  C++ arrays (std::array<float,16>) are modelled as total functions
  n -> Q, written only at the indices the code writes.
-/

namespace BigPi

/-- Uninterpreted analytic primitives standing for the <cmath> calls the
source makes.  Any instantiation is admissible, so theorems quantified
over `Prims` hold for the true real-valued functions. -/
structure Prims where
  fexp : ℚ → ℚ
  flog : ℚ → ℚ
  fsin : ℚ → ℚ
  ftanh : ℚ → ℚ
  fpow : ℚ → ℚ → ℚ
  fsqrt : ℚ → ℚ

/-- dsp::clampf from Dsp.h: max(lo, min(hi, x)). -/
def clampf (x lo hi : ℚ) : ℚ := max lo (min hi x)

/-- dsp::killDenorm from Dsp.h: zero values with magnitude below 1e-20. -/
def killDenorm (x : ℚ) : ℚ := if |x| < 1/100000000000000000000 then 0 else x

/-- dsp::kPi literal from Dsp.h. -/
def kPi : ℚ := 3.14159265358979323846

/-- kMaxLines from Matrices.h. -/
def kMaxLines : ℕ := 16

/-- Squared Euclidean norm of the first `lines` entries of a vector
(the square of the l2 norm the spec's invariants speak about). -/
def sumSq (v : ℕ → ℚ) (lines : ℕ) : ℚ :=
  ∑ i ∈ Finset.range lines, (v i) ^ 2

/-- isPowerOfTwo from Matrices.cpp: x > 0 and x & (x-1) == 0. -/
def isPowerOfTwo (x : ℕ) : Bool := (0 < x) && (x &&& (x - 1) == 0)

/-- One butterfly pass of the in-place fast Walsh-Hadamard transform in
hadamardMix (Matrices.cpp): for indices k < lines, the pair at distance
`step` inside each block of width 2*step is replaced by (a+b, a-b),
reading the pre-pass values. -/
def hadamardPass (lines step : ℕ) (v : ℕ → ℚ) : ℕ → ℚ := fun k =>
  if k < lines then
    if k % (2 * step) < step then v k + v (k + step)
    else v (k - step) - v k
  else v k

/-- The sequence of `step` values (1, 2, 4, ...) the FWHT loop in
hadamardMix iterates over: powers of two below `lines`. -/
def fwhtSteps (lines : ℕ) : List ℕ :=
  ((List.range 5).map (fun k => 2 ^ k)).filter (fun s => s < lines)

/-- householderMix from Matrices.cpp: clamp lines to [1,16], then reflect
the first `lines` entries through the all-ones vector: v[i] -= 2*mean. -/
def householderMix (v : ℕ → ℚ) (lines : ℤ) : ℕ → ℚ :=
  let l : ℕ := (max 1 (min lines 16)).toNat
  let s : ℚ := ∑ i ∈ Finset.range l, v i
  let mean : ℚ := s / (l : ℚ)
  fun k => if k < l then v k - 2 * mean else v k

/-- hadamardMix from Matrices.cpp: clamp lines to [1,16]; fall back to
householderMix when lines is not a power of two; otherwise apply the FWHT
butterflies and scale the first `lines` entries by the constant the code
stores (0.3535533905932738 for 8, 0.25 for 16, 1/sqrt(lines) otherwise). -/
def hadamardMix (P : Prims) (v : ℕ → ℚ) (lines : ℤ) : ℕ → ℚ :=
  let l : ℕ := (max 1 (min lines 16)).toNat
  if ¬ isPowerOfTwo l then householderMix v (l : ℤ)
  else
    let w : ℕ → ℚ := (fwhtSteps l).foldl (fun u s => hadamardPass l s u) v
    let scale : ℚ :=
      if l = 8 then 0.3535533905932738
      else if l = 16 then 0.25
      else 1 / P.fsqrt (l : ℚ)
    fun k => if k < l then scale * w k else w k

/-- MatrixType from Matrices.h. -/
inductive MatrixType where
  | Hadamard
  | Householder
deriving DecidableEq

/-- mix wrapper from Matrices.h: clamp lines to [0,16]; identity for
lines <= 1; otherwise dispatch on the matrix type. -/
def mix (P : Prims) (v : ℕ → ℚ) (lines : ℤ) (t : MatrixType) : ℕ → ℚ :=
  let l : ℤ := max 0 (min lines 16)
  if l ≤ 1 then v
  else if t = MatrixType.Hadamard then hadamardMix P v l
  else householderMix v l

/-! ### Tap patterns (Source/ReverbCore/TapPatterns.cpp) -/

/-- wrapIndex from TapPatterns.cpp: safe modulo that works for negative
values (C++ % truncates toward zero, then negatives are shifted up). -/
def wrapIndex (i n : ℤ) : ℤ :=
  if n ≤ 0 then 0
  else
    let m := Int.tmod i n
    if m < 0 then m + n else m

/-- Signed tap sum shared by patterns 0..2: walk a tap-index list, wrap
each index into [0, lines), apply the per-position sign, accumulate. -/
def tapSum (y : ℕ → ℚ) (lines : ℤ) (taps : List ℤ) (sgn : ℕ → ℚ) : ℚ :=
  (taps.enum).foldl (fun acc p => acc + sgn p.1 * y (wrapIndex p.2 lines).toNat) 0

/-- Sign sequence +,-,+,-,... ((t & 1) ? -1 : 1). -/
def altSignPos (t : ℕ) : ℚ := if t % 2 = 1 then -1 else 1

/-- Sign sequence -,+,-,+,... ((t & 1) ? 1 : -1). -/
def altSignNeg (t : ℕ) : ℚ := if t % 2 = 1 then 1 else -1

/-- pattern0 from TapPatterns.cpp: wide balanced, 7 taps per side,
normalized by 1/7. -/
def pattern0 (y : ℕ → ℚ) (lines : ℤ) : ℚ × ℚ :=
  let sumL := tapSum y lines [0, 2, 5, 7, 9, 12, 14] altSignPos
  let sumR := tapSum y lines [1, 3, 4, 6, 10, 13, 15] altSignNeg
  (sumL * (1 / 7), sumR * (1 / 7))

/-- pattern1 from TapPatterns.cpp: centered, same 6 taps both sides with
opposite sign sequences, normalized by 1/6. -/
def pattern1 (y : ℕ → ℚ) (lines : ℤ) : ℚ × ℚ :=
  let sumL := tapSum y lines [0, 3, 5, 8, 11, 13] altSignPos
  let sumR := tapSum y lines [0, 3, 5, 8, 11, 13] altSignNeg
  (sumL * (1 / 6), sumR * (1 / 6))

/-- pattern2 from TapPatterns.cpp: airy/scattered, 4 taps per side,
normalized by 1/4. -/
def pattern2 (y : ℕ → ℚ) (lines : ℤ) : ℚ × ℚ :=
  let sumL := tapSum y lines [2, 6, 9, 12] altSignPos
  let sumR := tapSum y lines [1, 7, 10, 15] altSignNeg
  (sumL * 0.25, sumR * 0.25)

/-- pattern3 from TapPatterns.cpp: L sums even indices with sign +1
(the code computes s = +1 at even i), R sums odd indices with sign
-(-1) = +1 at odd i; taps counts the even indices; normalize by the
tap count (or 1 when it is zero). -/
def pattern3 (y : ℕ → ℚ) (lines : ℤ) : ℚ × ℚ :=
  let n := lines.toNat
  let acc := (List.range n).foldl
    (fun (a : ℚ × ℚ × ℕ) i =>
      let s : ℚ := if i % 2 = 1 then -1 else 1
      if i % 2 = 0 then (a.1 + s * y i, a.2.1, a.2.2 + 1)
      else (a.1, a.2.1 + (-s) * y i, a.2.2))
    (0, 0, 0)
  let norm : ℚ := if 0 < acc.2.2 then 1 / (acc.2.2 : ℚ) else 1
  (acc.1 * norm, acc.2.1 * norm)

/-- The pattern-id normalization inside renderTapPattern: C++ truncating
`%` by 4, then wrap negatives into [0, 4). -/
def wrapPid (patternId : ℤ) : ℤ :=
  let p := Int.tmod patternId 4
  if p < 0 then p + 4 else p

/-- renderTapPattern from TapPatterns.cpp: clamp lines to [1,16],
normalize patternId with wrapPid, dispatch (default and case 0 both run
pattern0). -/
def renderTapPattern (y : ℕ → ℚ) (lines : ℤ) (patternId : ℤ) : ℚ × ℚ :=
  let l : ℤ := max 1 (min lines 16)
  let pid := wrapPid patternId
  if pid = 1 then pattern1 y l
  else if pid = 2 then pattern2 y l
  else if pid = 3 then pattern3 y l
  else pattern0 y l

/-! ### DSP primitives (src/dsp/common/Dsp.h) -/

/-- dsp::OnePoleLP state: one-pole low-pass, z' = a z + (1-a) x. -/
structure OnePoleLP where
  z : ℚ
  a : ℚ
deriving DecidableEq

/-- OnePoleLP::process from Dsp.h (returns filtered sample and new state). -/
def OnePoleLP.process (f : OnePoleLP) (x : ℚ) : ℚ × OnePoleLP :=
  let z := killDenorm (f.a * f.z + (1 - f.a) * x)
  (z, { f with z := z })

/-- OnePoleLP::clear. -/
def OnePoleLP.clear (f : OnePoleLP) : OnePoleLP := { f with z := 0 }

/-- OnePoleLP::setCutoff: clamp hz into [5, 0.49 sr], a = exp(-2 pi hz / sr). -/
def OnePoleLP.setCutoff (P : Prims) (f : OnePoleLP) (hz sr : ℚ) : OnePoleLP :=
  let h := clampf hz 5 (0.49 * sr)
  { f with a := P.fexp (-2 * kPi * h / sr) }

/-- dsp::OnePoleHP state: the same pole, output x - z. -/
structure OnePoleHP where
  z : ℚ
  a : ℚ
deriving DecidableEq

/-- OnePoleHP::process from Dsp.h. -/
def OnePoleHP.process (f : OnePoleHP) (x : ℚ) : ℚ × OnePoleHP :=
  let z := killDenorm (f.a * f.z + (1 - f.a) * x)
  (x - z, { f with z := z })

/-- OnePoleHP::clear. -/
def OnePoleHP.clear (f : OnePoleHP) : OnePoleHP := { f with z := 0 }

/-- OnePoleHP::setCutoff. -/
def OnePoleHP.setCutoff (P : Prims) (f : OnePoleHP) (hz sr : ℚ) : OnePoleHP :=
  let h := clampf hz 5 (0.49 * sr)
  { f with a := P.fexp (-2 * kPi * h / sr) }

/-- dsp::EnvelopeFollower state. -/
structure EnvelopeFollower where
  sr : ℚ
  env : ℚ
  aAtk : ℚ
  aRel : ℚ
deriving DecidableEq

/-- EnvelopeFollower::process: attack/release one-pole on |x|. -/
def EnvelopeFollower.process (e : EnvelopeFollower) (x : ℚ) : ℚ × EnvelopeFollower :=
  let mag := |x|
  let a := if mag > e.env then e.aAtk else e.aRel
  let env := killDenorm (a * e.env + (1 - a) * mag)
  (env, { e with env := env })

/-- EnvelopeFollower::clear. -/
def EnvelopeFollower.clear (e : EnvelopeFollower) : EnvelopeFollower := { e with env := 0 }

/-- EnvelopeFollower::setSampleRate. -/
def EnvelopeFollower.setSampleRate (e : EnvelopeFollower) (sampleRate : ℚ) : EnvelopeFollower :=
  { e with sr := if sampleRate ≤ 1 then 48000 else sampleRate }

/-- EnvelopeFollower::setAttackReleaseMs: aAtk/aRel = exp(-1/(T sr)). -/
def EnvelopeFollower.setAttackReleaseMs (P : Prims) (e : EnvelopeFollower)
    (attackMs releaseMs : ℚ) : EnvelopeFollower :=
  let atk := max attackMs 0.1
  let rel := max releaseMs 0.1
  { e with aAtk := P.fexp (-1 / (atk * 0.001 * e.sr)),
           aRel := P.fexp (-1 / (rel * 0.001 * e.sr)) }

/-- dsp::DelayLine state: circular buffer and write cursor. -/
structure DelayLine where
  buf : List ℚ
  w : ℕ
deriving DecidableEq

/-- DelayLine::init: buffer of max(4, maxSamples) zeros, cursor 0. -/
def DelayLine.init (maxSamples : ℤ) : DelayLine :=
  { buf := List.replicate (max 4 maxSamples).toNat 0, w := 0 }

/-- DelayLine::clear: zero the buffer, reset the cursor. -/
def DelayLine.clear (d : DelayLine) : DelayLine :=
  { buf := d.buf.map (fun _ => 0), w := 0 }

/-- DelayLine::push: write at the cursor, advance with wrap. -/
def DelayLine.push (d : DelayLine) (x : ℚ) : DelayLine :=
  if d.buf.isEmpty then d
  else
    let w' := d.w + 1
    { buf := d.buf.set d.w x, w := if d.buf.length ≤ w' then 0 else w' }

/-- DelayLine::readFracCubic from Dsp.h: clamp the delay into
[0, size-4], wrap the fractional read position into [0, size) (the
source's pair of while loops), take the four neighbours with wraparound
and combine them with the cubic Hermite basis. -/
def DelayLine.readFracCubic (d : DelayLine) (delaySamples : ℚ) : ℚ :=
  let n := d.buf.length
  if n < 4 then 0
  else
    let ds := clampf delaySamples 0 ((n : ℚ) - 4)
    let rp0 : ℚ := (d.w : ℚ) - ds
    let rp : ℚ := rp0 - (n : ℚ) * ⌊rp0 / (n : ℚ)⌋
    let i1 : ℕ := (⌊rp⌋).toNat
    let f : ℚ := rp - (i1 : ℚ)
    let i0 : ℕ := if i1 = 0 then n - 1 else i1 - 1
    let i2 : ℕ := if n ≤ i1 + 1 then i1 + 1 - n else i1 + 1
    let i3 : ℕ := if n ≤ i1 + 2 then i1 + 2 - n else i1 + 2
    let y0 := d.buf.getD i0 0
    let y1 := d.buf.getD i1 0
    let y2 := d.buf.getD i2 0
    let y3 := d.buf.getD i3 0
    let m1 := 0.5 * (y2 - y0)
    let m2 := 0.5 * (y3 - y1)
    let f2 := f * f
    let f3 := f2 * f
    let h00 := 2 * f3 - 3 * f2 + 1
    let h10 := f3 - 2 * f2 + f
    let h01 := -2 * f3 + 3 * f2
    let h11 := f3 - f2
    h00 * y1 + h10 * m1 + h01 * y2 + h11 * m2

/-- dsp::MultiLFO state: per-oscillator phases and rate multipliers. -/
structure MultiLFO where
  count : ℕ
  sr : ℚ
  phase : List ℚ
  rateMul : List ℚ
deriving DecidableEq

/-- MultiLFO::process from Dsp.h: clamp the index, emit sin(phase),
advance the phase by 2 pi hz / sr with a single wrap at 2 pi. -/
def MultiLFO.process (P : Prims) (l : MultiLFO) (i : ℕ) (baseRateHz : ℚ) : ℚ × MultiLFO :=
  let j := min i (l.count - 1)
  let hz := baseRateHz * l.rateMul.getD j 0
  let inc := 2 * kPi * hz / l.sr
  let y := P.fsin (l.phase.getD j 0)
  let p := l.phase.getD j 0 + inc
  let p' := if 2 * kPi ≤ p then p - 2 * kPi else p
  (y, { l with phase := l.phase.set j p' })

/-- dsp::softSat from Dsp.h: drive-clamped tanh shaper normalized so an
input of 1 maps to 1. -/
def softSat (P : Prims) (x drive : ℚ) : ℚ :=
  let dr := clampf drive 0 10
  let y := P.ftanh (x * (1 + dr))
  y * (1 / P.ftanh (1 + dr))

/-- dsp::SmoothNoise state: LCG target generator with one-pole smoothing. -/
structure SmoothNoise where
  sr : ℚ
  rng : ℕ
  y : ℚ
  target : ℚ
  rateHz : ℚ
  samplesToNext : ℤ
  a : ℚ
deriving DecidableEq

/-- SmoothNoise::nextRandBipolar: 32-bit LCG step, top 23 bits mapped
into [-1, 1) through the [1,2) float-bits trick. -/
def SmoothNoise.nextRandBipolar (rng : ℕ) : ℚ × ℕ :=
  let r := (1664525 * rng + 1013904223) % 2 ^ 32
  (2 * ((r >>> 9 : ℕ) / (2 ^ 23 : ℚ)) - 1, r)

/-- SmoothNoise::process from Dsp.h. -/
def SmoothNoise.process (sn : SmoothNoise) : ℚ × SmoothNoise :=
  let stn := sn.samplesToNext - 1
  let upd :=
    if stn ≤ 0 then
      let tr := SmoothNoise.nextRandBipolar sn.rng
      let period : ℤ := ⌊sn.sr / sn.rateHz⌋
      { sn with rng := tr.2, target := tr.1, samplesToNext := max 1 period }
    else { sn with samplesToNext := stn }
  let y := killDenorm (upd.a * sn.y + (1 - upd.a) * upd.target)
  (clampf y (-1) 1, { upd with y := y })

/-- SmoothNoise::clear (the RNG word is deliberately kept). -/
def SmoothNoise.clear (sn : SmoothNoise) : SmoothNoise :=
  { sn with y := 0, target := 0, samplesToNext := 1 }

/-- SmoothNoise::setSampleRate. -/
def SmoothNoise.setSampleRate (sn : SmoothNoise) (sampleRate : ℚ) : SmoothNoise :=
  { sn with sr := if sampleRate ≤ 1 then 48000 else sampleRate }

/-- SmoothNoise::setRateHz. -/
def SmoothNoise.setRateHz (sn : SmoothNoise) (hz : ℚ) : SmoothNoise :=
  let r := clampf hz 0.01 20
  { sn with rateHz := r, samplesToNext := max 1 ⌊sn.sr / r⌋ }

/-- SmoothNoise::setSmoothMs. -/
def SmoothNoise.setSmoothMs (P : Prims) (sn : SmoothNoise) (ms : ℚ) : SmoothNoise :=
  let m := max ms 0.1
  { sn with a := P.fexp (-1 / (m * 0.001 * sn.sr)) }

/-- SmoothNoise::seed. -/
def SmoothNoise.seed (sn : SmoothNoise) (s : ℕ) : SmoothNoise :=
  { sn with rng := if s = 0 then 1 else s }

/-- dsp::Allpass state: delay buffer, write index, coefficient, delay. -/
structure Allpass where
  buf : List ℚ
  idx : ℕ
  g : ℚ
  delaySamp : ℚ
deriving DecidableEq

/-- Allpass::process from Dsp.h: y = -g x + buf[read];
buf[write] = x + g y. -/
def Allpass.process (ap : Allpass) (x : ℚ) : ℚ × Allpass :=
  let n := ap.buf.length
  if n < 2 then (x, ap)
  else
    let dd : ℤ := ⌊clampf ap.delaySamp 1 ((n : ℚ) - 1)⌋
    let r : ℤ := (ap.idx : ℤ) - dd
    let r' : ℕ := (if r < 0 then r + n else r).toNat
    let v := ap.buf.getD r' 0
    let y := -ap.g * x + v
    let idx' := ap.idx + 1
    (y, { ap with buf := ap.buf.set ap.idx (x + ap.g * y),
                  idx := if n ≤ idx' then 0 else idx' })

/-- Allpass::clear. -/
def Allpass.clear (ap : Allpass) : Allpass :=
  { ap with buf := ap.buf.map (fun _ => 0), idx := 0 }

/-! ### Tank (src/dsp/tail/Tank.h / Tank.cpp) -/

/-- Tank::Config from Tank.h (all fields). -/
structure TankConfig where
  lines : ℤ
  matrix : MatrixType
  delaySamp : ℕ → ℚ
  fbHpHz : ℚ
  dampHz : ℚ
  xoverLoHz : ℚ
  xoverHiHz : ℚ
  decayLowMul : ℚ
  decayMidMul : ℚ
  decayHighMul : ℚ
  drive : ℚ
  satMix : ℚ
  modDepthSamples : ℚ
  modRateHz : ℚ
  modDepthMul : ℕ → ℚ
  modRateMul : ℕ → ℚ
  jitterEnable : ℚ
  jitterAmount : ℚ
  jitterRateHz : ℚ
  jitterSmoothMs : ℚ
  cloudEnable : ℚ
  cloudSpinHz : ℚ
  cloudWanderAmount : ℚ
  cloudWanderRateHz : ℚ
  cloudWanderSmoothMs : ℚ
  dynEnable : ℚ
  dynAmount : ℚ
  dynMinHz : ℚ
  dynMaxHz : ℚ
  dynSensitivity : ℚ
  dynAtkMs : ℚ
  dynRelMs : ℚ

/-- The private state of a Tank (Tank.h member variables). -/
structure TankState where
  sr : ℚ
  inited : Bool
  cfg : TankConfig
  d : ℕ → DelayLine
  hp : ℕ → OnePoleHP
  lp : ℕ → OnePoleLP
  xLo : ℕ → OnePoleLP
  xHi : ℕ → OnePoleLP
  jitter : ℕ → SmoothNoise
  cloudNoise : ℕ → SmoothNoise
  cloudPhaseOffset : ℕ → ℚ
  cloudPhase : ℚ
  envFollower : EnvelopeFollower
  env01 : ℚ
  dynDampHzCurrent : ℚ
  lastDecay01 : ℚ
  fbGainLow : ℕ → ℚ
  fbGainMid : ℕ → ℚ
  fbGainHigh : ℕ → ℚ
  lastY : ℕ → ℚ
  seed : ℕ

/-- The active-line count N = max(1, min(cfg.lines, kMaxLines)) the Tank
recomputes at each entry point. -/
def clampN (lines : ℤ) : ℕ := (max 1 (min lines 16)).toNat

/-- decay01ToRt60Sec from Tank.cpp: exponential map of the clamped decay
control onto [rt60Min, rt60Max] = [0.2 s, 12 s]. -/
def decay01ToRt60Sec (P : Prims) (decay01 : ℚ) : ℚ :=
  let d := clampf decay01 0 1
  let rt60Min : ℚ := 0.2
  let rt60Max : ℚ := 12
  rt60Min * P.fpow (rt60Max / rt60Min) d

/-- rt60ToFeedbackGain from Tank.cpp: exp(ln(0.001) * delaySec/rt60Sec)
with defensive floors on both arguments. -/
def rt60ToFeedbackGain (P : Prims) (delaySec rt60Sec : ℚ) : ℚ :=
  let r := max 0.01 rt60Sec
  let dl := max 0 delaySec
  P.fexp (P.flog 0.001 * (dl / r))

/-- Tank::updateDecayGains from Tank.cpp: memoized on lastDecay01; maps
decay01 to a base RT60, scales it per band (multiplier floored at 0.10),
derives each line's per-band feedback gain from its own delay length, and
clamps every gain into [0, 0.9997]. -/
def Tank.updateDecayGains (P : Prims) (s : TankState) (decay01 : ℚ) : TankState :=
  if decay01 = s.lastDecay01 then s
  else
    let rt60Base := decay01ToRt60Sec P decay01
    let rt60Low := rt60Base * max 0.10 s.cfg.decayLowMul
    let rt60Mid := rt60Base * max 0.10 s.cfg.decayMidMul
    let rt60High := rt60Base * max 0.10 s.cfg.decayHighMul
    let n := clampN s.cfg.lines
    let gl : ℕ → ℚ := fun i =>
      if i < n then
        clampf (rt60ToFeedbackGain P (max 1 (s.cfg.delaySamp i) / s.sr) rt60Low) 0 0.9997
      else s.fbGainLow i
    let gm : ℕ → ℚ := fun i =>
      if i < n then
        clampf (rt60ToFeedbackGain P (max 1 (s.cfg.delaySamp i) / s.sr) rt60Mid) 0 0.9997
      else s.fbGainMid i
    let gh : ℕ → ℚ := fun i =>
      if i < n then
        clampf (rt60ToFeedbackGain P (max 1 (s.cfg.delaySamp i) / s.sr) rt60High) 0 0.9997
      else s.fbGainHigh i
    { s with lastDecay01 := decay01, fbGainLow := gl, fbGainMid := gm, fbGainHigh := gh }

/-- Tank::computeDynamicDampingHz from Tank.cpp. -/
def Tank.computeDynamicDampingHz (s : TankState) (staticDampHz env01Now : ℚ) : ℚ :=
  let e := clampf (env01Now * s.cfg.dynSensitivity) 0 1
  let dynHz := s.cfg.dynMaxHz + (s.cfg.dynMinHz - s.cfg.dynMaxHz) * e
  let amt := clampf s.cfg.dynAmount 0 1
  clampf ((1 - amt) * staticDampHz + amt * dynHz) 20 (0.49 * s.sr)

/-- Tank::clear from Tank.cpp: flush every per-line delay buffer, filter
state, jitter and cloud-noise smoother, the envelope follower, the
cached outputs, the dynamic damping cutoff and the cloud phase.  The
inited flag, sample rate, config and cached decay gains are untouched. -/
def Tank.clear (s : TankState) : TankState :=
  { s with
    d := fun i => if i < kMaxLines then (s.d i).clear else s.d i
    hp := fun i => if i < kMaxLines then (s.hp i).clear else s.hp i
    lp := fun i => if i < kMaxLines then (s.lp i).clear else s.lp i
    xLo := fun i => if i < kMaxLines then (s.xLo i).clear else s.xLo i
    xHi := fun i => if i < kMaxLines then (s.xHi i).clear else s.xHi i
    jitter := fun i => if i < kMaxLines then (s.jitter i).clear else s.jitter i
    cloudNoise := fun i => if i < kMaxLines then (s.cloudNoise i).clear else s.cloudNoise i
    lastY := fun i => if i < kMaxLines then 0 else s.lastY i
    envFollower := s.envFollower.clear
    env01 := 0
    dynDampHzCurrent := s.cfg.dampHz
    cloudPhase := 0 }

/-- Tank::setConfig from Tank.cpp: store the config with every clamp the
source applies, push the (clamped) cutoffs and modulator parameters into
the per-line helpers for i < lines, reset the dynamic damping cutoff and
invalidate the decay-gain memo. -/
def Tank.setConfig (P : Prims) (s : TankState) (c : TankConfig) : TankState :=
  let nyq := 0.49 * s.sr
  let xoverLo := clampf c.xoverLoHz 30 nyq
  let dynMin := clampf c.dynMinHz 50 nyq
  let cfg : TankConfig :=
    { c with
      lines := max 1 (min c.lines 16)
      fbHpHz := clampf c.fbHpHz 5 nyq
      dampHz := clampf c.dampHz 20 nyq
      xoverLoHz := xoverLo
      xoverHiHz := clampf c.xoverHiHz (xoverLo + 10) nyq
      drive := clampf c.drive 0 10
      satMix := clampf c.satMix 0 1
      modRateHz := clampf c.modRateHz 0.01 20
      modDepthSamples := clampf c.modDepthSamples 0 2000
      jitterEnable := clampf c.jitterEnable 0 1
      jitterAmount := clampf c.jitterAmount 0 2
      jitterRateHz := clampf c.jitterRateHz 0.01 20
      jitterSmoothMs := clampf c.jitterSmoothMs 1 2000
      cloudEnable := clampf c.cloudEnable 0 1
      cloudSpinHz := clampf c.cloudSpinHz 0 1
      cloudWanderAmount := clampf c.cloudWanderAmount 0 2
      cloudWanderRateHz := clampf c.cloudWanderRateHz 0 2
      cloudWanderSmoothMs := clampf c.cloudWanderSmoothMs 1 5000
      dynEnable := clampf c.dynEnable 0 1
      dynAmount := clampf c.dynAmount 0 1
      dynSensitivity := clampf c.dynSensitivity 0 10
      dynMinHz := dynMin
      dynMaxHz := clampf c.dynMaxHz dynMin nyq
      dynAtkMs := clampf c.dynAtkMs 0.1 2000
      dynRelMs := clampf c.dynRelMs 0.1 5000 }
  let n : ℕ := cfg.lines.toNat
  { s with
    cfg := cfg
    hp := fun i => if i < n then (s.hp i).setCutoff P cfg.fbHpHz s.sr else s.hp i
    lp := fun i => if i < n then (s.lp i).setCutoff P cfg.dampHz s.sr else s.lp i
    xLo := fun i => if i < n then (s.xLo i).setCutoff P cfg.xoverLoHz s.sr else s.xLo i
    xHi := fun i => if i < n then (s.xHi i).setCutoff P cfg.xoverHiHz s.sr else s.xHi i
    jitter := fun i =>
      if i < n then ((s.jitter i).setRateHz cfg.jitterRateHz).setSmoothMs P cfg.jitterSmoothMs
      else s.jitter i
    cloudNoise := fun i =>
      if i < n then
        ((s.cloudNoise i).setRateHz cfg.cloudWanderRateHz).setSmoothMs P cfg.cloudWanderSmoothMs
      else s.cloudNoise i
    envFollower := s.envFollower.setAttackReleaseMs P cfg.dynAtkMs cfg.dynRelMs
    dynDampHzCurrent := cfg.dampHz
    lastDecay01 := -1 }

/-- One xorshift32 step of the shuffle RNG in Tank::init (uint32
arithmetic, shifts wrapped modulo 2^32). -/
def xorshift32 (x : ℕ) : ℕ :=
  let x1 := x ^^^ ((x <<< 13) % 2 ^ 32)
  let x2 := x1 ^^^ (x1 >>> 17)
  x2 ^^^ ((x2 <<< 5) % 2 ^ 32)

/-- One Fisher-Yates swap step of the offset shuffle in Tank::init. -/
def fyStep (st : List ℕ × ℕ) (i : ℕ) : List ℕ × ℕ :=
  let x := xorshift32 st.2
  let j := x % (i + 1)
  let a := st.1.getD i 0
  let b := st.1.getD j 0
  ((st.1.set i b).set j a, x)

/-- The shuffled index permutation computed in Tank::init (loop i from
kMaxLines-1 down to 1). -/
def shuffledIdx (seed0 : ℕ) : List ℕ :=
  ((((List.range 15).map (fun k => k + 1)).reverse).foldl fyStep (List.range 16, seed0)).1

/-- Tank::init from Tank.cpp: normalize sample rate and seed, size every
delay line, seed and parameterize the per-line modulators, set up the
envelope follower, compute the shuffled cloud phase offsets, raise the
inited flag and finish with clear(). -/
def Tank.init (P : Prims) (s : TankState) (sampleRate : ℚ) (maxDelaySamples : ℤ) (sd : ℕ) :
    TankState :=
  let sr := if sampleRate ≤ 1 then 48000 else sampleRate
  let seed := if sd % 2 ^ 32 = 0 then 1 else sd % 2 ^ 32
  let mds := max 8 maxDelaySamples
  let idx := shuffledIdx ((seed ^^^ 0xA511E9B3) % 2 ^ 32)
  let offsets : ℕ → ℚ :=
    (List.range 16).foldl
      (fun o i => Function.update o (idx.getD i 0) (2 * kPi * ((i : ℚ) / 16)))
      s.cloudPhaseOffset
  Tank.clear
    { s with
      sr := sr
      seed := seed
      d := fun i => if i < kMaxLines then DelayLine.init mds else s.d i
      jitter := fun i =>
        if i < kMaxLines then
          (((((s.jitter i).setSampleRate sr).seed
              ((seed + 0x9E3779B9 * (i + 1)) % 2 ^ 32)).setRateHz 0.35).setSmoothMs P 80)
        else s.jitter i
      cloudNoise := fun i =>
        if i < kMaxLines then
          (((((s.cloudNoise i).setSampleRate sr).seed
              ((seed + 0x7F4A7C15 * (i + 1)) % 2 ^ 32)).setRateHz 0.08).setSmoothMs P 500)
        else s.cloudNoise i
      hp := fun i => if i < kMaxLines then (s.hp i).clear else s.hp i
      lp := fun i => if i < kMaxLines then (s.lp i).clear else s.lp i
      xLo := fun i => if i < kMaxLines then (s.xLo i).clear else s.xLo i
      xHi := fun i => if i < kMaxLines then (s.xHi i).clear else s.xHi i
      lastY := fun i => if i < kMaxLines then 0 else s.lastY i
      envFollower :=
        ((s.envFollower.setSampleRate sr).setAttackReleaseMs P 12 280).clear
      env01 := 0
      cloudPhaseOffset := offsets
      cloudPhase := 0
      inited := true }

/-- The once-per-sample advance of the global cloud "spin" phase at the
top of processSample / processSampleVec. -/
def cloudPhaseNext (s : TankState) : ℚ :=
  if s.cfg.cloudEnable > 0.0001 ∧ s.cfg.cloudSpinHz > 0 then
    let p := s.cloudPhase + 2 * kPi * (s.cfg.cloudSpinHz / s.sr)
    if 2 * kPi ≤ p then p - 2 * kPi else p
  else s.cloudPhase

/-- Accumulator for the per-line read loop of processSample /
processSampleVec: the states it mutates and the vectors it fills. -/
structure ReadAcc where
  lfo : MultiLFO
  jitter : ℕ → SmoothNoise
  cloudNoise : ℕ → SmoothNoise
  y : ℕ → ℚ
  yOut : ℕ → ℚ
  lastY : ℕ → ℚ
  peakAbs : ℚ

/-- One iteration (line i) of the read loop in processSample /
processSampleVec: pick the LFO value (rotating cloud field or the shared
oscillator bank), the jitter and wander contributions, form the modulated
delay, read the line cubically, and record the result in y, yOut, lastY
and the running peak. -/
def readLine (P : Prims) (s : TankState) (acc : ReadAcc) (i : ℕ) : ReadAcc :=
  let depthMul := s.cfg.modDepthMul i
  let rateMul := s.cfg.modRateMul i
  let lfoRes : ℚ × MultiLFO :=
    if s.cfg.cloudEnable > 0.0001 then
      (P.fsin (cloudPhaseNext s + s.cloudPhaseOffset i), acc.lfo)
    else MultiLFO.process P acc.lfo i (s.cfg.modRateHz * rateMul)
  let jitRes : ℚ × SmoothNoise :=
    if s.cfg.jitterEnable > 0.0001 then (acc.jitter i).process else (0, acc.jitter i)
  let wanderRes : ℚ × SmoothNoise :=
    if s.cfg.cloudEnable > 0.0001 then
      let r := (acc.cloudNoise i).process
      (s.cfg.cloudWanderAmount * r.1, r.2)
    else (0, acc.cloudNoise i)
  let md := s.cfg.modDepthSamples *
    (lfoRes.1 * depthMul + s.cfg.jitterEnable * s.cfg.jitterAmount * jitRes.1 +
      wanderRes.1 * depthMul)
  let delay := max 1 (s.cfg.delaySamp i + md)
  let yi := (s.d i).readFracCubic delay
  { lfo := lfoRes.2
    jitter := Function.update acc.jitter i jitRes.2
    cloudNoise := Function.update acc.cloudNoise i wanderRes.2
    y := Function.update acc.y i yi
    yOut := Function.update acc.yOut i yi
    lastY := Function.update acc.lastY i yi
    peakAbs := max acc.peakAbs |yi| }

/-- The whole read loop: fold readLine over lines 0..N-1 starting from
the zero-filled y vector and the caller's yOut array. -/
def readPhase (P : Prims) (s : TankState) (lfo : MultiLFO) (yOut0 : ℕ → ℚ) : ReadAcc :=
  (List.range (clampN s.cfg.lines)).foldl (readLine P s)
    { lfo := lfo, jitter := s.jitter, cloudNoise := s.cloudNoise,
      y := fun _ => 0, yOut := yOut0, lastY := s.lastY, peakAbs := 0 }

/-- The feedback chain of the writeback loop for one line, fed with the
matrix-mixed sample x: high-pass, damped low-pass (with the freshly
shared coefficient aLP), two-point crossover split, per-band RT60 gains,
soft-saturation blend.  Returns the value added to the injection and the
four updated filter states. -/
def lineFeedback (P : Prims) (s : TankState) (gs : TankState) (aLP x : ℚ) (i : ℕ) :
    ℚ × OnePoleHP × OnePoleLP × OnePoleLP × OnePoleLP :=
  let r1 := (s.hp i).process x
  let r2 := OnePoleLP.process { z := (s.lp i).z, a := aLP } r1.1
  let rLo := (s.xLo i).process r2.1
  let rHi := (s.xHi i).process r2.1
  let low := rLo.1
  let lowMid := rHi.1
  let mid := lowMid - low
  let high := r2.1 - lowMid
  let fbColored := low * gs.fbGainLow i + mid * gs.fbGainMid i + high * gs.fbGainHigh i
  let sat := softSat P fbColored s.cfg.drive
  let fbFinal := (1 - s.cfg.satMix) * fbColored + s.cfg.satMix * sat
  (fbFinal, r1.2, r2.2, rLo.2, rHi.2)

/-- The shared body of Tank::processSample and Tank::processSampleVec
(the two C++ bodies are identical except for the per-line injection
pushed at the end; this body takes the per-line injection vector).
Returns the new tank state, the new shared LFO bank state, and the
caller's output array after the write of the first N entries. -/
def tankStep (P : Prims) (s : TankState) (injVec : ℕ → ℚ) (baseDecay : ℚ)
    (lfo : MultiLFO) (yOut0 : ℕ → ℚ) : TankState × MultiLFO × (ℕ → ℚ) :=
  if s.inited = false then
    (s, lfo, fun i => if i < kMaxLines then 0 else yOut0 i)
  else
    let n := clampN s.cfg.lines
    let dec := clampf baseDecay 0 0.9995
    let acc := readPhase P s lfo yOut0
    let envRes := s.envFollower.process acc.peakAbs
    let env01 := clampf (envRes.1 * 2) 0 1
    let mixed := mix P acc.y (n : ℤ) s.cfg.matrix
    let dampHzEffective :=
      if s.cfg.dynEnable > 0.0001 then Tank.computeDynamicDampingHz s s.cfg.dampHz env01
      else clampf s.cfg.dampHz 20 (0.49 * s.sr)
    let dynCur := 0.995 * s.dynDampHzCurrent + 0.005 * dampHzEffective
    let aLP := P.fexp (-2 * kPi * dynCur / s.sr)
    let gs := Tank.updateDecayGains P s dec
    ({ s with
        cloudPhase := cloudPhaseNext s
        jitter := acc.jitter
        cloudNoise := acc.cloudNoise
        lastY := acc.lastY
        envFollower := envRes.2
        env01 := env01
        dynDampHzCurrent := dynCur
        lastDecay01 := gs.lastDecay01
        fbGainLow := gs.fbGainLow
        fbGainMid := gs.fbGainMid
        fbGainHigh := gs.fbGainHigh
        d := fun i =>
          if i < n then (s.d i).push (injVec i + (lineFeedback P s gs aLP (mixed i) i).1)
          else s.d i
        hp := fun i => if i < n then (lineFeedback P s gs aLP (mixed i) i).2.1 else s.hp i
        lp := fun i => if i < n then (lineFeedback P s gs aLP (mixed i) i).2.2.1 else s.lp i
        xLo := fun i => if i < n then (lineFeedback P s gs aLP (mixed i) i).2.2.2.1 else s.xLo i
        xHi := fun i => if i < n then (lineFeedback P s gs aLP (mixed i) i).2.2.2.2 else s.xHi i },
      acc.lfo,
      acc.yOut)

/-- Tank::processSample from Tank.cpp: the scalar legacy entry point,
spreading inj/N over every line before running the shared body. -/
def Tank.processSample (P : Prims) (s : TankState) (inj baseDecay : ℚ)
    (lfo : MultiLFO) (yOut0 : ℕ → ℚ) : TankState × MultiLFO × (ℕ → ℚ) :=
  tankStep P s (fun _ => inj / (clampN s.cfg.lines : ℚ)) baseDecay lfo yOut0

/-- Tank::processSampleVec from Tank.cpp: the per-line-vector entry point. -/
def Tank.processSampleVec (P : Prims) (s : TankState) (injVec : ℕ → ℚ) (baseDecay : ℚ)
    (lfo : MultiLFO) (yOut0 : ℕ → ℚ) : TankState × MultiLFO × (ℕ → ℚ) :=
  tankStep P s injVec baseDecay lfo yOut0

/-! ### Diffusion (Diffusion.h / Diffusion.cpp) -/

/-- Diffusion::InputConfig. -/
structure InputConfig where
  stages : ℤ
  g : ℚ
  timesMsL : ℕ → ℚ
  timesMsR : ℕ → ℚ

/-- Diffusion::LateConfig. -/
structure LateConfig where
  minG : ℚ
  maxG : ℚ
  timesMsL : ℕ → ℚ
  timesMsR : ℕ → ℚ

/-- kMaxInputStages from Diffusion.h. -/
def kMaxInputStages : ℕ := 8

/-- kLateStages from Diffusion.h. -/
def kLateStages : ℕ := 3

/-- The private state of the Diffusion module. -/
structure DiffusionState where
  sr : ℚ
  inited : Bool
  inputCfg : InputConfig
  lateCfg : LateConfig
  inL : ℕ → Allpass
  inR : ℕ → Allpass
  lateL : ℕ → Allpass
  lateR : ℕ → Allpass
  activeInputStages : ℤ
  tvG : ℚ

/-- Diffusion::clampInputStages. -/
def clampInputStages (s : ℤ) : ℤ := max 0 (min s 8)

/-- msToSamples from Diffusion.cpp. -/
def msToSamples (ms sr : ℚ) : ℚ := ms * 0.001 * sr

/-- Diffusion::setInputConfig from Diffusion.cpp: store the given config
verbatim, clamp only the stage count, copy the delay times and the given
coefficient g (unclamped) into all 8 stage pairs, and reset tvG to g. -/
def Diffusion.setInputConfig (d : DiffusionState) (cfg : InputConfig) : DiffusionState :=
  { d with
    inputCfg := cfg
    activeInputStages := clampInputStages cfg.stages
    inL := fun i =>
      if i < kMaxInputStages then
        { d.inL i with delaySamp := msToSamples (cfg.timesMsL i) d.sr, g := cfg.g }
      else d.inL i
    inR := fun i =>
      if i < kMaxInputStages then
        { d.inR i with delaySamp := msToSamples (cfg.timesMsR i) d.sr, g := cfg.g }
      else d.inR i
    tvG := cfg.g }

/-- Diffusion::setLateConfig from Diffusion.cpp: store the config and
copy delay times plus the (unclamped) maxG coefficient into the 3 late
stage pairs. -/
def Diffusion.setLateConfig (d : DiffusionState) (cfg : LateConfig) : DiffusionState :=
  { d with
    lateCfg := cfg
    lateL := fun i =>
      if i < kLateStages then
        { d.lateL i with delaySamp := msToSamples (cfg.timesMsL i) d.sr, g := cfg.maxG }
      else d.lateL i
    lateR := fun i =>
      if i < kLateStages then
        { d.lateR i with delaySamp := msToSamples (cfg.timesMsR i) d.sr, g := cfg.maxG }
      else d.lateR i }

/-- A serial allpass chain as run by processInput / processLate: each
stage first has its coefficient set to g, then filters the running
value. -/
def allpassChain (aps : ℕ → Allpass) (g : ℚ) (count : ℕ) (x : ℚ) : ℚ × (ℕ → Allpass) :=
  (List.range count).foldl
    (fun acc i =>
      let r := Allpass.process { acc.2 i with g := g } acc.1
      (r.1, Function.update acc.2 i r.2))
    (x, aps)

/-- Diffusion::processInput from Diffusion.cpp: no-op unless initialized
with at least one active stage; the applied coefficient is tvG clamped
into [0.30, 0.85]. -/
def Diffusion.processInput (d : DiffusionState) (L R : ℚ) : DiffusionState × ℚ × ℚ :=
  if d.inited = false ∨ d.activeInputStages ≤ 0 then (d, L, R)
  else
    let g := clampf d.tvG 0.30 0.85
    let cL := allpassChain d.inL g d.activeInputStages.toNat L
    let cR := allpassChain d.inR g d.activeInputStages.toNat R
    ({ d with inL := cL.2, inR := cR.2 }, cL.1, cR.1)

/-- Diffusion::processLate from Diffusion.cpp: no-op unless initialized;
clamp amount01 to [0,1]; short-circuit (dry through) when the clamped
amount is at most 0.0001; otherwise run the 3-stage late chain with
g = clamp(minG + (maxG-minG)*amount, 0.25, 0.85) and crossfade
out = (1-amount)*dry + amount*diffused. -/
def Diffusion.processLate (d : DiffusionState) (L R amount01 : ℚ) : DiffusionState × ℚ × ℚ :=
  if d.inited = false then (d, L, R)
  else
    let a := clampf amount01 0 1
    if a ≤ 0.0001 then (d, L, R)
    else
      let g := clampf (d.lateCfg.minG + (d.lateCfg.maxG - d.lateCfg.minG) * a) 0.25 0.85
      let cL := allpassChain d.lateL g kLateStages L
      let cR := allpassChain d.lateR g kLateStages R
      ({ d with lateL := cL.2, lateR := cR.2 },
       (1 - a) * L + a * cL.1,
       (1 - a) * R + a * cR.1)

/-! ### Helper lemmas -/

theorem le_clampf (x lo hi : ℚ) : lo ≤ clampf x lo hi := le_max_left _ _

theorem clampf_le (x lo hi : ℚ) (h : lo ≤ hi) : clampf x lo hi ≤ hi :=
  max_le h (min_le_left _ _)

theorem clampf_le_left (x lo hi : ℚ) (h : x ≤ hi) : clampf x lo hi ≤ max lo x := by
  unfold clampf
  exact max_le (le_max_left _ _) (le_max_of_le_right (min_le_right _ _))

/-! ### Concrete objects used by witnesses and counterexamples -/

/-- A concrete instantiation of the analytic primitives (everything
returns 0), used to evaluate witnesses on closed inputs. -/
def P0 : Prims :=
  { fexp := fun _ => 0, flog := fun _ => 0, fsin := fun _ => 0,
    ftanh := fun _ => 0, fpow := fun _ _ => 0, fsqrt := fun _ => 0 }

/-- A concrete 2-line tank configuration with all modulation off. -/
def cfg0 : TankConfig :=
  { lines := 2, matrix := MatrixType.Householder, delaySamp := fun _ => 4,
    fbHpHz := 30, dampHz := 100, xoverLoHz := 250, xoverHiHz := 3500,
    decayLowMul := 1, decayMidMul := 1, decayHighMul := 1,
    drive := 0, satMix := 0, modDepthSamples := 0, modRateHz := 1/4,
    modDepthMul := fun _ => 0, modRateMul := fun _ => 0,
    jitterEnable := 0, jitterAmount := 0, jitterRateHz := 1, jitterSmoothMs := 80,
    cloudEnable := 0, cloudSpinHz := 0, cloudWanderAmount := 0,
    cloudWanderRateHz := 0, cloudWanderSmoothMs := 500,
    dynEnable := 0, dynAmount := 0, dynMinHz := 3500, dynMaxHz := 12000,
    dynSensitivity := 3, dynAtkMs := 12, dynRelMs := 280 }

/-- An all-zero 8-slot delay line. -/
def dl0 : DelayLine := { buf := List.replicate 8 0, w := 0 }

/-- An 8-slot delay line holding an impulse in slot 4. -/
def dl1 : DelayLine := { buf := [0, 0, 0, 0, 1, 0, 0, 0], w := 0 }

/-- A quiescent one-pole low-pass. -/
def lp0 : OnePoleLP := { z := 0, a := 0 }

/-- A quiescent one-pole high-pass. -/
def hp0 : OnePoleHP := { z := 0, a := 0 }

/-- A quiescent envelope follower. -/
def env0 : EnvelopeFollower := { sr := 48000, env := 0, aAtk := 0, aRel := 0 }

/-- A quiescent smooth-noise generator. -/
def sn0 : SmoothNoise :=
  { sr := 48000, rng := 1, y := 0, target := 0, rateHz := 1, samplesToNext := 1, a := 0 }

/-- A 2-oscillator LFO bank at rest. -/
def lfo0 : MultiLFO := { count := 2, sr := 48000, phase := [0, 0], rateMul := [1, 1] }

/-- A concrete initialized 2-line tank whose line 0 holds an impulse 4
samples back. -/
def tank0 : TankState :=
  { sr := 48000, inited := true, cfg := cfg0,
    d := fun i => if i = 0 then dl1 else dl0,
    hp := fun _ => hp0, lp := fun _ => lp0, xLo := fun _ => lp0, xHi := fun _ => lp0,
    jitter := fun _ => sn0, cloudNoise := fun _ => sn0,
    cloudPhaseOffset := fun _ => 0, cloudPhase := 0,
    envFollower := env0, env01 := 0, dynDampHzCurrent := 100,
    lastDecay01 := 0, fbGainLow := fun _ => 0, fbGainMid := fun _ => 0,
    fbGainHigh := fun _ => 0, lastY := fun _ => 0, seed := 1 }

/-- tank0 with the inited flag down. -/
def tank0u : TankState := { tank0 with inited := false }

/-! ### C1: RT60 feedback gains stay strictly below 1 -/

/-- C1: for every decay01 in [0,1], every configured band multiplier set,
every line count and per-line nominal delay, each per-line per-band
feedback gain freshly computed by Tank::updateDecayGains lies in
[0, 0.9997], hence strictly below 1. -/
theorem updateDecayGains_ceiling (P : Prims) (s : TankState) (decay01 : ℚ) (i : ℕ)
    (hm : decay01 ≠ s.lastDecay01) (h0 : 0 ≤ decay01) (h1 : decay01 ≤ 1)
    (hi : i < clampN s.cfg.lines) :
    (0 ≤ (Tank.updateDecayGains P s decay01).fbGainLow i ∧
      (Tank.updateDecayGains P s decay01).fbGainLow i ≤ 0.9997 ∧
      (Tank.updateDecayGains P s decay01).fbGainLow i < 1) ∧
    (0 ≤ (Tank.updateDecayGains P s decay01).fbGainMid i ∧
      (Tank.updateDecayGains P s decay01).fbGainMid i ≤ 0.9997 ∧
      (Tank.updateDecayGains P s decay01).fbGainMid i < 1) ∧
    (0 ≤ (Tank.updateDecayGains P s decay01).fbGainHigh i ∧
      (Tank.updateDecayGains P s decay01).fbGainHigh i ≤ 0.9997 ∧
      (Tank.updateDecayGains P s decay01).fbGainHigh i < 1) := by
  have hb : (0.9997 : ℚ) ≤ 0.9997 := le_refl _
  have hlt : (0.9997 : ℚ) < 1 := by norm_num
  unfold Tank.updateDecayGains
  rw [if_neg hm]
  simp only [hi, if_pos]
  refine ⟨⟨le_clampf _ _ _, clampf_le _ _ _ (by norm_num), ?_⟩,
          ⟨le_clampf _ _ _, clampf_le _ _ _ (by norm_num), ?_⟩,
          ⟨le_clampf _ _ _, clampf_le _ _ _ (by norm_num), ?_⟩⟩ <;>
    exact lt_of_le_of_lt (clampf_le _ _ _ (by norm_num)) hlt

/-- Witness for C1 at a concrete input: tank0 with decay01 = 1/2. -/
theorem updateDecayGains_ceiling_witness :
    (1/2 : ℚ) ≠ tank0.lastDecay01 ∧ (0 : ℚ) ≤ 1/2 ∧ (1/2 : ℚ) ≤ 1 ∧ 0 < clampN tank0.cfg.lines ∧
    (0 ≤ (Tank.updateDecayGains P0 tank0 (1/2)).fbGainLow 0 ∧
      (Tank.updateDecayGains P0 tank0 (1/2)).fbGainLow 0 ≤ 0.9997 ∧
      (Tank.updateDecayGains P0 tank0 (1/2)).fbGainLow 0 < 1) ∧
    (0 ≤ (Tank.updateDecayGains P0 tank0 (1/2)).fbGainMid 0 ∧
      (Tank.updateDecayGains P0 tank0 (1/2)).fbGainMid 0 ≤ 0.9997 ∧
      (Tank.updateDecayGains P0 tank0 (1/2)).fbGainMid 0 < 1) ∧
    (0 ≤ (Tank.updateDecayGains P0 tank0 (1/2)).fbGainHigh 0 ∧
      (Tank.updateDecayGains P0 tank0 (1/2)).fbGainHigh 0 ≤ 0.9997 ∧
      (Tank.updateDecayGains P0 tank0 (1/2)).fbGainHigh 0 < 1) := by
  refine ⟨by simp [tank0], by norm_num, by norm_num, by decide, ?_⟩
  exact updateDecayGains_ceiling P0 tank0 (1/2) 0 (by simp [tank0]) (by norm_num)
    (by norm_num) (by decide)

/-! ### C4: energy preservation of the mixing transforms -/

/-- Scaling the first L entries scales the partial squared norm by c^2. -/
theorem sumSq_scale (c : ℚ) (w : ℕ → ℚ) (L : ℕ) :
    sumSq (fun k => if k < L then c * w k else w k) L = c ^ 2 * sumSq w L := by
  unfold sumSq
  rw [Finset.mul_sum]
  refine Finset.sum_congr rfl fun k hk => ?_
  show (if k < L then c * w k else w k) ^ 2 = c ^ 2 * w k ^ 2
  rw [if_pos (Finset.mem_range.mp hk)]
  ring

set_option maxHeartbeats 2000000 in
/-- The unscaled 8-point FWHT multiplies the squared norm by 8. -/
theorem fwht8_sumSq (v : ℕ → ℚ) :
    sumSq ((fwhtSteps 8).foldl (fun u s => hadamardPass 8 s u) v) 8 = 8 * sumSq v 8 := by
  show sumSq (hadamardPass 8 4 (hadamardPass 8 2 (hadamardPass 8 1 v))) 8 = 8 * sumSq v 8
  simp only [sumSq, Finset.sum_range_succ, Finset.sum_range_zero, hadamardPass]
  norm_num
  ring

set_option maxHeartbeats 4000000 in
/-- The unscaled 16-point FWHT multiplies the squared norm by 16. -/
theorem fwht16_sumSq (v : ℕ → ℚ) :
    sumSq ((fwhtSteps 16).foldl (fun u s => hadamardPass 16 s u) v) 16 = 16 * sumSq v 16 := by
  show sumSq (hadamardPass 16 8 (hadamardPass 16 4 (hadamardPass 16 2 (hadamardPass 16 1 v)))) 16
      = 16 * sumSq v 16
  simp only [sumSq, Finset.sum_range_succ, Finset.sum_range_zero, hadamardPass]
  norm_num
  ring

/-- householderMix preserves the squared norm exactly for every line
count in [1, 16] (over exact arithmetic). -/
theorem householder_sumSq (v : ℕ → ℚ) (lines : ℤ) (h1 : 1 ≤ lines) (h2 : lines ≤ 16) :
    sumSq (householderMix v lines) lines.toNat = sumSq v lines.toNat := by
  have hcl : max 1 (min lines 16) = lines := by omega
  set L := lines.toNat with hLdef
  have hL0 : 0 < L := by omega
  have hLQ : ((L : ℚ)) ≠ 0 := by positivity
  unfold householderMix
  rw [hcl]
  simp only [sumSq]
  set S := ∑ i ∈ Finset.range L, v i with hS
  have hstep : ∀ k ∈ Finset.range L,
      (if k < L then v k - 2 * (S / (L : ℚ)) else v k) ^ 2
        = (v k) ^ 2 - (4 * (S / (L : ℚ))) * v k + 4 * (S / (L : ℚ)) ^ 2 := by
    intro k hk
    rw [if_pos (Finset.mem_range.mp hk)]
    ring
  rw [Finset.sum_congr rfl hstep]
  rw [Finset.sum_add_distrib, Finset.sum_sub_distrib, ← Finset.mul_sum, ← hS,
    Finset.sum_const, Finset.card_range, nsmul_eq_mul]
  field_simp
  ring

/-- hadamardMix at 16 lines preserves the squared norm exactly (the
stored scale 0.25 is exactly 1/sqrt(16)). -/
theorem hadamard16_sumSq (P : Prims) (v : ℕ → ℚ) :
    sumSq (hadamardMix P v 16) 16 = sumSq v 16 := by
  have hl : ((max 1 (min (16 : ℤ) 16)).toNat) = 16 := by decide
  unfold hadamardMix
  rw [hl]
  rw [if_neg (by decide : ¬ (¬ isPowerOfTwo 16 = true))]
  norm_num
  rw [sumSq_scale, fwht16_sumSq]
  ring

/-- hadamardMix at 8 lines scales the squared norm by 8 c^2 where c is
the stored decimal constant 0.3535533905932738 (not exactly 1/sqrt 8). -/
theorem hadamard8_sumSq (P : Prims) (v : ℕ → ℚ) :
    sumSq (hadamardMix P v 8) 8
      = (8 * (0.3535533905932738 : ℚ) ^ 2) * sumSq v 8 := by
  have hl : ((max 1 (min (8 : ℤ) 16)).toNat) = 8 := by decide
  unfold hadamardMix
  rw [hl]
  rw [if_neg (by decide : ¬ (¬ isPowerOfTwo 8 = true))]
  norm_num
  rw [sumSq_scale, fwht8_sumSq]
  ring_nf

/-- An impulse vector (1 at index 0). -/
def e0 : ℕ → ℚ := fun i => if i = 0 then 1 else 0

/-- C4 counterexample: the claim as stated (both transforms preserve the
l2 norm exactly, Hadamard for N in {8,16} after its scaling) fails at the
concrete input N = 8, v = impulse: the code's stored scale constant for
N = 8 is the decimal literal 0.3535533905932738, whose square times 8 is
not 1, so the squared output norm differs from the squared input norm. -/
theorem mix_energy_counterexample :
    ¬ (∀ (P : Prims) (v : ℕ → ℚ) (N : ℤ), 1 ≤ N → N ≤ 16 →
        (sumSq (householderMix v N) N.toNat = sumSq v N.toNat ∧
         ((N = 8 ∨ N = 16) → sumSq (hadamardMix P v N) N.toNat = sumSq v N.toNat))) := by
  intro h
  have h8 := (h P0 e0 8 (by norm_num) (by norm_num)).2 (Or.inl rfl)
  rw [show ((8 : ℤ)).toNat = 8 from rfl, hadamard8_sumSq] at h8
  have he : sumSq e0 8 = 1 := by
    simp [sumSq, e0, Finset.sum_range_succ]
  rw [he, mul_one] at h8
  norm_num at h8

/-- C4 amended: householderMix preserves the squared l2 norm exactly for
every N in [1,16]; hadamardMix preserves it exactly for N = 16; for
N = 8 the squared norm is scaled by 8 c^2 (c the stored constant
0.3535533905932738), a factor that differs from 1 by less than 1e-15. -/
theorem mix_energy (P : Prims) (v : ℕ → ℚ) (N : ℤ) (h1 : 1 ≤ N) (h2 : N ≤ 16) :
    sumSq (householderMix v N) N.toNat = sumSq v N.toNat ∧
    sumSq (hadamardMix P v 16) 16 = sumSq v 16 ∧
    sumSq (hadamardMix P v 8) 8 = (8 * (0.3535533905932738 : ℚ) ^ 2) * sumSq v 8 ∧
    |8 * (0.3535533905932738 : ℚ) ^ 2 - 1| < 1 / 10 ^ 15 :=
  ⟨householder_sumSq v N h1 h2, hadamard16_sumSq P v, hadamard8_sumSq P v, by
    rw [abs_of_nonneg (by norm_num)]
    norm_num⟩

/-- Witness for C4 at N = 3, v = impulse. -/
theorem mix_energy_witness :
    (1 : ℤ) ≤ 3 ∧ (3 : ℤ) ≤ 16 ∧
    (sumSq (householderMix e0 3) (3 : ℤ).toNat = sumSq e0 (3 : ℤ).toNat ∧
     sumSq (hadamardMix P0 e0 16) 16 = sumSq e0 16 ∧
     sumSq (hadamardMix P0 e0 8) 8 = (8 * (0.3535533905932738 : ℚ) ^ 2) * sumSq e0 8 ∧
     |8 * (0.3535533905932738 : ℚ) ^ 2 - 1| < 1 / 10 ^ 15) :=
  ⟨by norm_num, by norm_num, mix_energy P0 e0 3 (by norm_num) (by norm_num)⟩

/-! ### C8: tap-pattern id wraparound -/

theorem neg_four_lt_tmod (p : ℤ) : -4 < Int.tmod p 4 := by
  rcases p with m | m
  · have h := Int.tmod_nonneg (a := Int.ofNat m) 4 (Int.ofNat_nonneg m)
    omega
  · have h4 : Int.tmod (Int.negSucc m) 4 = - Int.ofNat ((m + 1) % 4) := rfl
    have hlt : (m + 1) % 4 < 4 := Nat.mod_lt _ (by norm_num)
    rw [h4, Int.ofNat_eq_natCast]
    omega

theorem wrapPid_nonneg (p : ℤ) : 0 ≤ wrapPid p := by
  have hlb := neg_four_lt_tmod p
  simp only [wrapPid]
  split <;> omega

theorem wrapPid_lt_four (p : ℤ) : wrapPid p < 4 := by
  have hub := Int.tmod_lt_of_pos p (by norm_num : (0 : ℤ) < 4)
  simp only [wrapPid]
  split <;> omega

theorem wrapPid_idem (p : ℤ) : wrapPid (wrapPid p) = wrapPid p := by
  have hub := Int.tmod_lt_of_pos p (by norm_num : (0 : ℤ) < 4)
  have hlb := neg_four_lt_tmod p
  simp only [wrapPid]
  by_cases hneg : Int.tmod p 4 < 0
  · rw [if_pos hneg, Int.tmod_eq_of_lt (by omega) (by omega), if_neg (by omega)]
  · rw [if_neg hneg, Int.tmod_eq_of_lt (by omega) (by omega), if_neg hneg]

/-- C8: renderTapPattern reduces any integer patternId modulo the number
of defined patterns (4), wrapping negatives into range, so every integer
is valid; in particular patternId = -1 and patternId = 3 render
identically on every input vector and line count. -/
theorem renderTapPattern_wraparound (y : ℕ → ℚ) (lines patternId : ℤ) :
    renderTapPattern y lines patternId = renderTapPattern y lines (wrapPid patternId) ∧
    0 ≤ wrapPid patternId ∧ wrapPid patternId < 4 ∧
    renderTapPattern y lines (-1) = renderTapPattern y lines 3 := by
  refine ⟨?_, wrapPid_nonneg patternId, wrapPid_lt_four patternId, ?_⟩
  · simp only [renderTapPattern]
    rw [wrapPid_idem]
  · simp only [renderTapPattern]
    rw [show wrapPid (-1) = 3 from by decide, show wrapPid 3 = 3 from by decide]

/-! ### C9: late diffusion crossfade -/

/-- C9: processLate clamps amount01 into [0,1]; at or near zero amount
(clamped value at most 0.0001) it short-circuits and leaves L, R and the
state untouched; otherwise each channel is the exact crossfade
(1-a) dry + a diffused with the 3-stage late allpass chain, so the
deviation from dry is exactly a * |diffused - dry| — proportional to the
amount, hence no discontinuous jump in output level for small amounts. -/
theorem processLate_crossfade (d : DiffusionState) (L R amount01 : ℚ)
    (h : d.inited = true) :
    (0 ≤ clampf amount01 0 1 ∧ clampf amount01 0 1 ≤ 1) ∧
    (clampf amount01 0 1 ≤ 0.0001 → Diffusion.processLate d L R amount01 = (d, L, R)) ∧
    (0.0001 < clampf amount01 0 1 →
      ((Diffusion.processLate d L R amount01).2.1
          = (1 - clampf amount01 0 1) * L + clampf amount01 0 1 *
            (allpassChain d.lateL
              (clampf (d.lateCfg.minG + (d.lateCfg.maxG - d.lateCfg.minG) * clampf amount01 0 1)
                0.25 0.85) kLateStages L).1 ∧
        (Diffusion.processLate d L R amount01).2.2
          = (1 - clampf amount01 0 1) * R + clampf amount01 0 1 *
            (allpassChain d.lateR
              (clampf (d.lateCfg.minG + (d.lateCfg.maxG - d.lateCfg.minG) * clampf amount01 0 1)
                0.25 0.85) kLateStages R).1 ∧
        |(Diffusion.processLate d L R amount01).2.1 - L|
          = clampf amount01 0 1 *
            |(allpassChain d.lateL
                (clampf (d.lateCfg.minG + (d.lateCfg.maxG - d.lateCfg.minG) * clampf amount01 0 1)
                  0.25 0.85) kLateStages L).1 - L|)) := by
  have ha0 : 0 ≤ clampf amount01 0 1 := le_clampf _ _ _
  have ha1 : clampf amount01 0 1 ≤ 1 := clampf_le _ _ _ (by norm_num)
  refine ⟨⟨ha0, ha1⟩, ?_, ?_⟩
  · intro hsmall
    unfold Diffusion.processLate
    rw [if_neg (by rw [h]; exact fun hf => Bool.noConfusion hf)]
    simp only [if_pos hsmall]
  · intro hbig
    unfold Diffusion.processLate
    rw [if_neg (by rw [h]; exact fun hf => Bool.noConfusion hf)]
    simp only [if_neg (not_le.mpr hbig)]
    refine ⟨trivial, trivial, ?_⟩
    have hcalc :
        (1 - clampf amount01 0 1) * L + clampf amount01 0 1 *
            (allpassChain d.lateL
              (clampf (d.lateCfg.minG + (d.lateCfg.maxG - d.lateCfg.minG) * clampf amount01 0 1)
                0.25 0.85) kLateStages L).1 - L
          = clampf amount01 0 1 *
            ((allpassChain d.lateL
              (clampf (d.lateCfg.minG + (d.lateCfg.maxG - d.lateCfg.minG) * clampf amount01 0 1)
                0.25 0.85) kLateStages L).1 - L) := by ring
    show |(1 - clampf amount01 0 1) * L + _ - L| = _
    rw [hcalc, abs_mul, abs_of_nonneg ha0]

/-- A concrete allpass stage. -/
def ap0 : Allpass := { buf := List.replicate 4 0, idx := 0, g := 1/2, delaySamp := 2 }

/-- A concrete input-diffusion config. -/
def icfg0 : InputConfig :=
  { stages := 6, g := 0.72, timesMsL := fun _ => 1, timesMsR := fun _ => 1 }

/-- A concrete late-diffusion config. -/
def lcfg0 : LateConfig :=
  { minG := 0.45, maxG := 0.72, timesMsL := fun _ => 5, timesMsR := fun _ => 5 }

/-- A concrete initialized diffusion state. -/
def diff0 : DiffusionState :=
  { sr := 48000, inited := true, inputCfg := icfg0, lateCfg := lcfg0,
    inL := fun _ => ap0, inR := fun _ => ap0, lateL := fun _ => ap0,
    lateR := fun _ => ap0, activeInputStages := 6, tvG := 0.72 }

/-- Witness for C9: concrete initialized diffusion, amount 0 short-circuits. -/
theorem processLate_crossfade_witness :
    diff0.inited = true ∧ Diffusion.processLate diff0 1 0 0 = (diff0, 1, 0) :=
  ⟨rfl, (processLate_crossfade diff0 1 0 0 rfl).2.1 (by norm_num [clampf])⟩

/-! ### C5: configuration-time clamping -/

/-- The C5 claim as stated: after Tank::setConfig the stored line count
is in [1,16] and every stored frequency field is at most 0.49 * sr, and
after Diffusion::setInputConfig / setLateConfig every stored allpass
stage coefficient lies in [0.25, 0.85]. -/
def claim5Statement : Prop :=
  (∀ (P : Prims) (s : TankState) (c : TankConfig),
      1 ≤ (Tank.setConfig P s c).cfg.lines ∧ (Tank.setConfig P s c).cfg.lines ≤ 16 ∧
      (Tank.setConfig P s c).cfg.fbHpHz ≤ 0.49 * s.sr ∧
      (Tank.setConfig P s c).cfg.dampHz ≤ 0.49 * s.sr ∧
      (Tank.setConfig P s c).cfg.xoverLoHz ≤ 0.49 * s.sr ∧
      (Tank.setConfig P s c).cfg.xoverHiHz ≤ 0.49 * s.sr ∧
      (Tank.setConfig P s c).cfg.dynMinHz ≤ 0.49 * s.sr ∧
      (Tank.setConfig P s c).cfg.dynMaxHz ≤ 0.49 * s.sr) ∧
  (∀ (d : DiffusionState) (ic : InputConfig) (i : ℕ), i < kMaxInputStages →
      0.25 ≤ ((Diffusion.setInputConfig d ic).inL i).g ∧
      ((Diffusion.setInputConfig d ic).inL i).g ≤ 0.85) ∧
  (∀ (d : DiffusionState) (lc : LateConfig) (i : ℕ), i < kLateStages →
      0.25 ≤ ((Diffusion.setLateConfig d lc).lateL i).g ∧
      ((Diffusion.setLateConfig d lc).lateL i).g ≤ 0.85)

/-- A config with absurdly large crossover frequencies. -/
def cfgHuge : TankConfig := { cfg0 with xoverLoHz := 10 ^ 9, xoverHiHz := 10 ^ 9 }

/-- An input-diffusion config with a near-unity coefficient. -/
def icfg99 : InputConfig := { icfg0 with g := 0.99 }

/-- C5 counterexample: the claim fails on the code.  Concretely (1) at
sr = 48000 a huge xoverLoHz forces the stored xoverHiHz to
0.49 * sr + 10, above the claimed Nyquist guard, and (2)
Diffusion::setInputConfig stores the supplied coefficient 0.99 verbatim
into the allpass stages — no clamp to [0.25, 0.85] happens at
configuration time. -/
theorem setConfig_clamp_counterexample :
    ¬ claim5Statement ∧
    0.49 * tank0.sr < (Tank.setConfig P0 tank0 cfgHuge).cfg.xoverHiHz ∧
    0.85 < ((Diffusion.setInputConfig diff0 icfg99).inL 0).g := by
  have hxhi : (Tank.setConfig P0 tank0 cfgHuge).cfg.xoverHiHz
      = clampf (10 ^ 9) (clampf (10 ^ 9) 30 (0.49 * tank0.sr) + 10) (0.49 * tank0.sr) := rfl
  have hg : ((Diffusion.setInputConfig diff0 icfg99).inL 0).g = 0.99 := by
    simp [Diffusion.setInputConfig, kMaxInputStages, icfg99, icfg0]
  have hxv : 0.49 * tank0.sr < (Tank.setConfig P0 tank0 cfgHuge).cfg.xoverHiHz := by
    rw [hxhi]
    show (0.49 * tank0.sr : ℚ) < max _ _
    simp only [tank0]
    norm_num [clampf]
  have hgv : (0.85 : ℚ) < ((Diffusion.setInputConfig diff0 icfg99).inL 0).g := by
    rw [hg]; norm_num
  refine ⟨fun h => ?_, hxv, hgv⟩
  have := (h.2.1 diff0 icfg99 0 (by norm_num [kMaxInputStages])).2
  rw [hg] at this
  norm_num at this

theorem clampf_le_max (x lo hi : ℚ) : clampf x lo hi ≤ max hi lo :=
  max_le (le_max_right _ _) ((min_le_left _ _).trans (le_max_left _ _))

theorem Allpass.process_g (ap : Allpass) (x : ℚ) : ((Allpass.process ap x)).2.g = ap.g := by
  simp only [Allpass.process]
  split <;> rfl

theorem allpassChain_g (aps : ℕ → Allpass) (g x : ℚ) :
    ∀ count i, i < count → ((allpassChain aps g count x).2 i).g = g := by
  intro count
  induction count generalizing x with
  | zero => intro i hi; omega
  | succ n ih =>
    intro i hi
    unfold allpassChain at *
    rw [List.range_succ, List.foldl_append] at *
    simp only [List.foldl_cons, List.foldl_nil]
    rcases Nat.lt_succ_iff_lt_or_eq.mp hi with hlt | heq
    · rw [Function.update_apply]
      split
      · next he =>
        subst he
        rw [Allpass.process_g]
      · exact ih x i hlt
    · subst heq
      rw [Function.update_same, Allpass.process_g]

/-- C5 amended: Tank::setConfig does clamp at configuration time — the
stored line count lands in [1,16] and (for coherent sample rates,
200 <= sr) the stored fbHpHz, dampHz, xoverLoHz, dynMinHz and dynMaxHz
land at or below 0.49 * sr, while xoverHiHz can exceed the Nyquist guard
only through its lower spacing floor xoverLoHz + 10.  The diffusion
coefficient, by contrast, is stored verbatim by setInputConfig, and the
[0.25, 0.85]-safety clamp happens at process time instead: every stage
coefficient processInput actually applies lies in [0.30, 0.85], and
every stage coefficient processLate applies lies in [0.25, 0.85]. -/
theorem setConfig_clamp (P : Prims) (s : TankState) (c : TankConfig)
    (d : DiffusionState) (ic : InputConfig) (i : ℕ) (L R a : ℚ)
    (hsr : 200 ≤ s.sr) :
    (1 ≤ (Tank.setConfig P s c).cfg.lines ∧ (Tank.setConfig P s c).cfg.lines ≤ 16) ∧
    ((Tank.setConfig P s c).cfg.fbHpHz ≤ 0.49 * s.sr ∧
     (Tank.setConfig P s c).cfg.dampHz ≤ 0.49 * s.sr ∧
     (Tank.setConfig P s c).cfg.xoverLoHz ≤ 0.49 * s.sr ∧
     (Tank.setConfig P s c).cfg.dynMinHz ≤ 0.49 * s.sr ∧
     (Tank.setConfig P s c).cfg.dynMaxHz ≤ 0.49 * s.sr ∧
     (Tank.setConfig P s c).cfg.xoverHiHz
        ≤ max (0.49 * s.sr) ((Tank.setConfig P s c).cfg.xoverLoHz + 10)) ∧
    (i < kMaxInputStages → ((Diffusion.setInputConfig d ic).inL i).g = ic.g) ∧
    (d.inited = true → 0 < d.activeInputStages → i < d.activeInputStages.toNat →
      0.30 ≤ ((Diffusion.processInput d L R).1.inL i).g ∧
      ((Diffusion.processInput d L R).1.inL i).g ≤ 0.85) ∧
    (d.inited = true → 0.0001 < clampf a 0 1 → i < kLateStages →
      0.25 ≤ ((Diffusion.processLate d L R a).1.lateL i).g ∧
      ((Diffusion.processLate d L R a).1.lateL i).g ≤ 0.85) := by
  have hnyq : (98 : ℚ) ≤ 0.49 * s.sr := by linarith
  have hlines : (Tank.setConfig P s c).cfg.lines = max 1 (min c.lines 16) := rfl
  have hfb : (Tank.setConfig P s c).cfg.fbHpHz = clampf c.fbHpHz 5 (0.49 * s.sr) := rfl
  have hdamp : (Tank.setConfig P s c).cfg.dampHz = clampf c.dampHz 20 (0.49 * s.sr) := rfl
  have hxlo : (Tank.setConfig P s c).cfg.xoverLoHz = clampf c.xoverLoHz 30 (0.49 * s.sr) := rfl
  have hxhi : (Tank.setConfig P s c).cfg.xoverHiHz
      = clampf c.xoverHiHz (clampf c.xoverLoHz 30 (0.49 * s.sr) + 10) (0.49 * s.sr) := rfl
  have hdmin : (Tank.setConfig P s c).cfg.dynMinHz = clampf c.dynMinHz 50 (0.49 * s.sr) := rfl
  have hdmax : (Tank.setConfig P s c).cfg.dynMaxHz
      = clampf c.dynMaxHz (clampf c.dynMinHz 50 (0.49 * s.sr)) (0.49 * s.sr) := rfl
  refine ⟨⟨?_, ?_⟩, ⟨?_, ?_, ?_, ?_, ?_, ?_⟩, ?_, ?_, ?_⟩
  · rw [hlines]; exact le_max_left _ _
  · rw [hlines]; exact max_le (by norm_num) ((min_le_right _ _).trans (by norm_num))
  · rw [hfb]; exact clampf_le _ _ _ (by linarith)
  · rw [hdamp]; exact clampf_le _ _ _ (by linarith)
  · rw [hxlo]; exact clampf_le _ _ _ (by linarith)
  · rw [hdmin]; exact clampf_le _ _ _ (by linarith)
  · rw [hdmax]
    exact clampf_le _ _ _ (clampf_le _ _ _ (by linarith))
  · rw [hxhi, hxlo]
    exact clampf_le_max _ _ _
  · intro hi
    unfold Diffusion.setInputConfig
    simp only [hi, if_pos]
  · intro hinit hstg hi
    unfold Diffusion.processInput
    rw [if_neg (by rw [hinit]; simp; omega)]
    have := allpassChain_g d.inL (clampf d.tvG 0.30 0.85) L d.activeInputStages.toNat i hi
    show 0.30 ≤ ((allpassChain d.inL (clampf d.tvG 0.30 0.85) d.activeInputStages.toNat L).2 i).g
        ∧ ((allpassChain d.inL (clampf d.tvG 0.30 0.85) d.activeInputStages.toNat L).2 i).g ≤ 0.85
    rw [this]
    exact ⟨le_clampf _ _ _, clampf_le _ _ _ (by norm_num)⟩
  · intro hinit hbig hi
    unfold Diffusion.processLate
    rw [if_neg (by rw [hinit]; exact fun hf => Bool.noConfusion hf)]
    simp only [if_neg (not_le.mpr hbig)]
    have := allpassChain_g d.lateL
      (clampf (d.lateCfg.minG + (d.lateCfg.maxG - d.lateCfg.minG) * clampf a 0 1) 0.25 0.85)
      L kLateStages i hi
    rw [this]
    exact ⟨le_clampf _ _ _, clampf_le _ _ _ (by norm_num)⟩

/-- Witness for C5 at a concrete tank, diffusion state and inputs. -/
theorem setConfig_clamp_witness :
    (200 : ℚ) ≤ tank0.sr ∧
    (1 ≤ (Tank.setConfig P0 tank0 cfg0).cfg.lines ∧
      (Tank.setConfig P0 tank0 cfg0).cfg.lines ≤ 16) :=
  ⟨by simp [tank0]; norm_num,
   (setConfig_clamp P0 tank0 cfg0 diff0 icfg0 0 1 0 (1/2)
      (by simp [tank0]; norm_num)).1⟩

/-! ### Read-loop frame lemmas -/

/-- The read loop never touches an index outside the list it walks. -/
theorem foldl_readLine_untouched (P : Prims) (s : TankState) (l : List ℕ) (acc : ReadAcc)
    (i : ℕ) (hl : ∀ j ∈ l, j ≠ i) :
    (l.foldl (readLine P s) acc).yOut i = acc.yOut i ∧
    (l.foldl (readLine P s) acc).y i = acc.y i := by
  induction l generalizing acc with
  | nil => exact ⟨rfl, rfl⟩
  | cons j t ih =>
    have hj : j ≠ i := hl j (List.mem_cons_self j t)
    have ht : ∀ k ∈ t, k ≠ i := fun k hk => hl k (List.mem_cons_of_mem j hk)
    rw [List.foldl_cons]
    refine ⟨(ih (readLine P s acc j) ht).1.trans ?_, (ih (readLine P s acc j) ht).2.trans ?_⟩ <;>
      simp [readLine, Function.update_noteq (Ne.symm hj)]

/-- After the read loop over lines 0..n-1, the caller's array and the
internal y vector agree on every written index. -/
theorem range_foldl_readLine_agree (P : Prims) (s : TankState) (n : ℕ) (acc : ReadAcc) :
    ∀ i < n, ((List.range n).foldl (readLine P s) acc).yOut i
      = ((List.range n).foldl (readLine P s) acc).y i := by
  induction n generalizing acc with
  | zero => intro i hi; omega
  | succ m ih =>
    intro i hi
    rw [List.range_succ, List.foldl_append, List.foldl_cons, List.foldl_nil]
    rcases Nat.lt_succ_iff_lt_or_eq.mp hi with hlt | heq
    · have hne : i ≠ m := by omega
      simp only [readLine, Function.update_noteq hne]
      exact ih acc i hlt
    · subst heq
      simp only [readLine, Function.update_same]

/-- The modulated delay the read loop forms for line i given the
accumulated modulator states (the value max(1, nominal + mod) fed to the
cubic read). -/
def readLineDelay (P : Prims) (s : TankState) (acc : ReadAcc) (i : ℕ) : ℚ :=
  let depthMul := s.cfg.modDepthMul i
  let rateMul := s.cfg.modRateMul i
  let lfoRes : ℚ × MultiLFO :=
    if s.cfg.cloudEnable > 0.0001 then
      (P.fsin (cloudPhaseNext s + s.cloudPhaseOffset i), acc.lfo)
    else MultiLFO.process P acc.lfo i (s.cfg.modRateHz * rateMul)
  let jitRes : ℚ × SmoothNoise :=
    if s.cfg.jitterEnable > 0.0001 then (acc.jitter i).process else (0, acc.jitter i)
  let wanderRes : ℚ × SmoothNoise :=
    if s.cfg.cloudEnable > 0.0001 then
      let r := (acc.cloudNoise i).process
      (s.cfg.cloudWanderAmount * r.1, r.2)
    else (0, acc.cloudNoise i)
  let md := s.cfg.modDepthSamples *
    (lfoRes.1 * depthMul + s.cfg.jitterEnable * s.cfg.jitterAmount * jitRes.1 +
      wanderRes.1 * depthMul)
  max 1 (s.cfg.delaySamp i + md)

theorem readLine_y_self (P : Prims) (s : TankState) (acc : ReadAcc) (i : ℕ) :
    (readLine P s acc i).y i = (s.d i).readFracCubic (readLineDelay P s acc i) := by
  simp [readLine, readLineDelay, Function.update_same]

/-- Every value the read loop stores at an index it visits is a cubic
read of that line's delay buffer (at some modulated delay). -/
theorem foldl_readLine_y_is_read (P : Prims) (s : TankState) (l : List ℕ) (acc : ReadAcc)
    (i : ℕ) (hi : i ∈ l) :
    ∃ del, (l.foldl (readLine P s) acc).y i = (s.d i).readFracCubic del := by
  induction l generalizing acc with
  | nil => cases hi
  | cons j t ih =>
    rw [List.foldl_cons]
    by_cases hit : i ∈ t
    · exact ih (readLine P s acc j) hit
    · have hij : i = j := by
        rcases List.mem_cons.mp hi with h | h
        · exact h
        · exact absurd h hit
      subst hij
      have ht : ∀ k ∈ t, k ≠ i := fun k hk => fun he => hit (he ▸ hk)
      rw [(foldl_readLine_untouched P s t (readLine P s acc i) i ht).2]
      exact ⟨readLineDelay P s acc i, readLine_y_self P s acc i⟩

/-! ### C7: two-state machine (uninitialized / initialized) -/

/-- C7: before init() both processing entry points return the all-zero
output vector and leave the tank untouched; init() raises the inited
flag; clear() and both processing entry points preserve it (the tank
never reverts to uninitialized except through re-init). -/
theorem tank_state_machine (P : Prims) (s : TankState) (inj : ℚ) (injV : ℕ → ℚ)
    (dec : ℚ) (lfo : MultiLFO) (y0 : ℕ → ℚ) (sampleRate : ℚ) (mds : ℤ) (sd : ℕ)
    (h : s.inited = false) :
    ((Tank.processSampleVec P s injV dec lfo y0).2.2
        = fun i => if i < kMaxLines then 0 else y0 i) ∧
    ((Tank.processSampleVec P s injV dec lfo y0).1 = s) ∧
    ((Tank.processSample P s inj dec lfo y0).2.2
        = fun i => if i < kMaxLines then 0 else y0 i) ∧
    ((Tank.processSample P s inj dec lfo y0).1 = s) ∧
    (∀ s' : TankState, (Tank.init P s' sampleRate mds sd).inited = true) ∧
    (∀ s' : TankState, (Tank.clear s').inited = s'.inited) ∧
    (∀ s' : TankState, (Tank.processSampleVec P s' injV dec lfo y0).1.inited = s'.inited) ∧
    (∀ s' : TankState, (Tank.processSample P s' inj dec lfo y0).1.inited = s'.inited) := by
  refine ⟨?_, ?_, ?_, ?_, fun s' => rfl, fun s' => rfl, fun s' => ?_, fun s' => ?_⟩
  · show (tankStep P s injV dec lfo y0).2.2 = _
    rw [tankStep, if_pos h]
  · show (tankStep P s injV dec lfo y0).1 = s
    rw [tankStep, if_pos h]
  · show (tankStep P s _ dec lfo y0).2.2 = _
    rw [tankStep, if_pos h]
  · show (tankStep P s _ dec lfo y0).1 = s
    rw [tankStep, if_pos h]
  · show (tankStep P s' injV dec lfo y0).1.inited = s'.inited
    rw [tankStep]
    split <;> rfl
  · show (tankStep P s' _ dec lfo y0).1.inited = s'.inited
    rw [tankStep]
    split <;> rfl

/-- Witness for C7 with the concrete uninitialized tank. -/
theorem tank_state_machine_witness :
    tank0u.inited = false ∧
    (Tank.processSampleVec P0 tank0u (fun _ => 0) 0 lfo0 (fun _ => 0)).1 = tank0u :=
  ⟨rfl, (tank_state_machine P0 tank0u 0 (fun _ => 0) 0 lfo0 (fun _ => 0) 48000 64 1 rfl).2.1⟩

/-! ### C10: frame effect of processSampleVec on the caller's array -/

/-- C10: an initialized tank writes exactly entries 0..N-1 of the
caller's output array (each with that line's modulated cubic read);
entries at index N and above keep the caller's values.  The
uninitialized path instead fills all kMaxLines entries with zero. -/
theorem processSampleVec_frame (P : Prims) (s : TankState) (injV : ℕ → ℚ) (dec : ℚ)
    (lfo : MultiLFO) (y0 : ℕ → ℚ) (h : s.inited = true) :
    (∀ i, clampN s.cfg.lines ≤ i →
      (Tank.processSampleVec P s injV dec lfo y0).2.2 i = y0 i) ∧
    (∀ i < clampN s.cfg.lines,
      ∃ del, (Tank.processSampleVec P s injV dec lfo y0).2.2 i
        = (s.d i).readFracCubic del) ∧
    (∀ t : TankState, t.inited = false → ∀ i < kMaxLines,
      (Tank.processSampleVec P t injV dec lfo y0).2.2 i = 0) := by
  have hyOut : (Tank.processSampleVec P s injV dec lfo y0).2.2
      = (readPhase P s lfo y0).yOut := by
    show (tankStep P s injV dec lfo y0).2.2 = _
    rw [tankStep, if_neg (by rw [h]; exact fun hf => Bool.noConfusion hf)]
  refine ⟨?_, ?_, ?_⟩
  · intro i hi
    rw [hyOut]
    exact (foldl_readLine_untouched P s _ _ i
      (fun j hj => by have := List.mem_range.mp hj; omega)).1
  · intro i hi
    rw [hyOut, readPhase, range_foldl_readLine_agree P s _ _ i hi]
    exact foldl_readLine_y_is_read P s _ _ i (List.mem_range.mpr hi)
  · intro t ht i hi
    show (tankStep P t injV dec lfo y0).2.2 i = 0
    rw [tankStep, if_pos ht]
    simp [hi]

/-- Witness for C10 with the concrete 2-line tank (entry 2 is retained). -/
theorem processSampleVec_frame_witness :
    tank0.inited = true ∧
    (Tank.processSampleVec P0 tank0 (fun _ => 0) 0 lfo0 (fun _ => 7)).2.2 2 = 7 := by
  refine ⟨rfl, ?_⟩
  have := (processSampleVec_frame P0 tank0 (fun _ => 0) 0 lfo0 (fun _ => 7) rfl).1 2
    (by decide)
  rw [this]

/-! ### C6: clear() then a zero-injection sample yields silence -/

theorem getD_map_zero (l : List ℚ) (n : ℕ) :
    (l.map (fun _ => (0 : ℚ))).getD n 0 = 0 := by
  induction l generalizing n with
  | nil => rfl
  | cons x t ih =>
    cases n with
    | zero => rfl
    | succ m => exact ih m

/-- A cleared delay line reads zero at every delay. -/
theorem readFracCubic_clear (d : DelayLine) (del : ℚ) :
    (DelayLine.clear d).readFracCubic del = 0 := by
  unfold DelayLine.clear DelayLine.readFracCubic
  by_cases hlen : (d.buf.map (fun _ => (0 : ℚ))).length < 4
  · simp only [hlen, if_pos]
  · simp only [hlen, if_neg, getD_map_zero]
    ring_nf
    simp

/-- C6: for an initialized tank in any state, clear() followed by one
processSampleVec call with the all-zero injection vector produces zero
in every active output entry; if the caller's array starts all-zero the
whole returned array is zero. -/
theorem clear_then_zero (P : Prims) (s : TankState) (dec : ℚ) (lfo : MultiLFO)
    (y0 : ℕ → ℚ) (h : s.inited = true) :
    (∀ i < clampN s.cfg.lines,
      (Tank.processSampleVec P (Tank.clear s) (fun _ => 0) dec lfo y0).2.2 i = 0) ∧
    ((∀ i, y0 i = 0) →
      ∀ i, (Tank.processSampleVec P (Tank.clear s) (fun _ => 0) dec lfo y0).2.2 i = 0) := by
  have hinit : (Tank.clear s).inited = true := h
  have hcfg : (Tank.clear s).cfg.lines = s.cfg.lines := rfl
  have hyOut : (Tank.processSampleVec P (Tank.clear s) (fun _ => 0) dec lfo y0).2.2
      = (readPhase P (Tank.clear s) lfo y0).yOut := by
    show (tankStep P (Tank.clear s) (fun _ => 0) dec lfo y0).2.2 = _
    rw [tankStep, if_neg (by rw [hinit]; exact fun hf => Bool.noConfusion hf)]
  have hactive : ∀ i < clampN s.cfg.lines,
      (Tank.processSampleVec P (Tank.clear s) (fun _ => 0) dec lfo y0).2.2 i = 0 := by
    intro i hi
    rw [hyOut, readPhase, hcfg, range_foldl_readLine_agree P (Tank.clear s) _ _ i hi]
    obtain ⟨del, hdel⟩ := foldl_readLine_y_is_read P (Tank.clear s) _ _ i (List.mem_range.mpr hi)
    rw [hdel]
    have hd : (Tank.clear s).d i = (s.d i).clear := by
      have hik : i < kMaxLines := by
        have := hi
        unfold clampN at this
        unfold kMaxLines
        omega
      simp [Tank.clear, hik]
    rw [hd, readFracCubic_clear]
  refine ⟨hactive, fun hy0 i => ?_⟩
  by_cases hi : i < clampN s.cfg.lines
  · exact hactive i hi
  · rw [hyOut]
    unfold readPhase
    have hNeq : clampN (Tank.clear s).cfg.lines = clampN s.cfg.lines := by rw [hcfg]
    have hfr := foldl_readLine_untouched P (Tank.clear s)
      (List.range (clampN (Tank.clear s).cfg.lines))
      { lfo := lfo, jitter := (Tank.clear s).jitter, cloudNoise := (Tank.clear s).cloudNoise,
        y := fun _ => 0, yOut := y0, lastY := (Tank.clear s).lastY, peakAbs := 0 } i
      (fun j hj => by
        have hjr : j < clampN (Tank.clear s).cfg.lines := List.mem_range.mp hj
        omega)
    rw [hfr.1]
    exact hy0 i

/-- Witness for C6: concrete tank, the impulse in line 0 is wiped by
clear() and the first output sample is zero. -/
theorem clear_then_zero_witness :
    tank0.inited = true ∧
    (Tank.processSampleVec P0 (Tank.clear tank0) (fun _ => 0) 0 lfo0 (fun _ => 0)).2.2 0 = 0 :=
  ⟨rfl, (clear_then_zero P0 tank0 0 lfo0 (fun _ => 0) rfl).1 0 (by decide)⟩

/-! ### C3: scalar injection refines vector injection -/

/-- tankStep reads the injection vector only at the active indices
i < N, in the final per-line push. -/
theorem tankStep_inj_congr (P : Prims) (s : TankState) (inj1 inj2 : ℕ → ℚ)
    (dec : ℚ) (lfo : MultiLFO) (y0 : ℕ → ℚ)
    (h : ∀ i < clampN s.cfg.lines, inj1 i = inj2 i) :
    tankStep P s inj1 dec lfo y0 = tankStep P s inj2 dec lfo y0 := by
  by_cases hin : s.inited = false
  · simp only [tankStep, if_pos hin]
  · simp only [tankStep, if_neg hin, Prod.mk.injEq, TankState.mk.injEq, and_true, true_and]
    funext i
    by_cases hi : i < clampN s.cfg.lines
    · simp only [if_pos hi, h i hi]
    · simp only [if_neg hi]

/-- C3: processSample(inj, ...) behaves identically — same output array,
same new tank state, same new LFO-bank state — to processSampleVec with
any injection vector whose first N active entries all equal inj/N. -/
theorem processSample_refines_vec (P : Prims) (s : TankState) (inj dec : ℚ)
    (lfo : MultiLFO) (y0 : ℕ → ℚ) (injV : ℕ → ℚ)
    (hv : ∀ i < clampN s.cfg.lines, injV i = inj / (clampN s.cfg.lines : ℚ)) :
    Tank.processSample P s inj dec lfo y0 = Tank.processSampleVec P s injV dec lfo y0 :=
  tankStep_inj_congr P s (fun _ => inj / (clampN s.cfg.lines : ℚ)) injV dec lfo y0
    (fun i hi => (hv i hi).symm)

/-- Witness for C3: concrete 2-line tank, scalar 2 versus vector of 1s. -/
theorem processSample_refines_vec_witness :
    (∀ i < clampN tank0.cfg.lines, (fun _ => (1 : ℚ)) i = 2 / (clampN tank0.cfg.lines : ℚ)) ∧
    Tank.processSample P0 tank0 2 0 lfo0 (fun _ => 0)
      = Tank.processSampleVec P0 tank0 (fun _ => 1) 0 lfo0 (fun _ => 0) := by
  have hv : ∀ i < clampN tank0.cfg.lines, (fun _ => (1 : ℚ)) i
      = 2 / (clampN tank0.cfg.lines : ℚ) := by
    intro i hi
    show (1 : ℚ) = 2 / ((clampN tank0.cfg.lines : ℕ) : ℚ)
    rw [show clampN tank0.cfg.lines = 2 from rfl]
    norm_num
  exact ⟨hv, processSample_refines_vec P0 tank0 2 0 lfo0 (fun _ => 0) (fun _ => 1) hv⟩

/-! ### C2: what processSampleVec hands back to the caller -/

/-- For an initialized tank the returned array is the read-loop's yOut. -/
theorem tankStep_yOut_eq (P : Prims) (s : TankState) (injV : ℕ → ℚ) (dec : ℚ)
    (lfo : MultiLFO) (y0 : ℕ → ℚ) (h : s.inited = true) :
    (tankStep P s injV dec lfo y0).2.2 = (readPhase P s lfo y0).yOut := by
  rw [tankStep, if_neg (by rw [h]; exact fun hf => Bool.noConfusion hf)]

/-- The damped low-pass coefficient tankStep derives for the sample
(envelope update, optional dynamic damping, slow smoothing, one-pole
coefficient), shared across all lines. -/
def tankALP (P : Prims) (s : TankState) (lfo : MultiLFO) (y0 : ℕ → ℚ) : ℚ :=
  let acc := readPhase P s lfo y0
  let envRes := s.envFollower.process acc.peakAbs
  let env01 := clampf (envRes.1 * 2) 0 1
  let dampHzEffective :=
    if s.cfg.dynEnable > 0.0001 then Tank.computeDynamicDampingHz s s.cfg.dampHz env01
    else clampf s.cfg.dampHz 20 (0.49 * s.sr)
  let dynCur := 0.995 * s.dynDampHzCurrent + 0.005 * dampHzEffective
  P.fexp (-2 * kPi * dynCur / s.sr)

/-- The C2 claim as stated: the output vector processSampleVec returns
to the caller equals the matrix-mixed read vector on the active lines. -/
def claim2Statement : Prop :=
  ∀ (P : Prims) (s : TankState) (injV : ℕ → ℚ) (dec : ℚ) (lfo : MultiLFO) (y0 : ℕ → ℚ),
    s.inited = true → ∀ i < clampN s.cfg.lines,
      (Tank.processSampleVec P s injV dec lfo y0).2.2 i
        = mix P (readPhase P s lfo y0).y (clampN s.cfg.lines : ℤ) s.cfg.matrix i

/-- C2 counterexample: on the concrete 2-line tank whose line 0 reads 1
and line 1 reads 0, the caller receives the raw read (yOut 0 = 1),
while the Householder-mixed vector has entry 0 equal to 0: the returned
vector is the pre-mix read vector, not the mixed one. -/
theorem processSampleVec_output_counterexample : ¬ claim2Statement := by
  intro hc
  have h := hc P0 tank0 (fun _ => 0) 0 lfo0 (fun _ => 0) rfl 0 (by decide)
  have hstep : (Tank.processSampleVec P0 tank0 (fun _ => 0) 0 lfo0 (fun _ => 0)).2.2
      = (readPhase P0 tank0 lfo0 (fun _ => 0)).yOut :=
    tankStep_yOut_eq P0 tank0 (fun _ => 0) 0 lfo0 (fun _ => 0) rfl
  have hrange : List.range (clampN tank0.cfg.lines) = [0, 1] := rfl
  have hread0 : (dl1.readFracCubic 4) = 1 := by
    unfold DelayLine.readFracCubic dl1 clampf
    norm_num
    simp
  have hread1 : (dl0.readFracCubic 4) = 0 := by
    unfold DelayLine.readFracCubic dl0 clampf
    norm_num
  have hy : (readPhase P0 tank0 lfo0 (fun _ => 0)).y 0 = 1 ∧
      (readPhase P0 tank0 lfo0 (fun _ => 0)).y 1 = 0 ∧
      (readPhase P0 tank0 lfo0 (fun _ => 0)).yOut 0 = 1 := by
    unfold readPhase
    rw [hrange]
    simp only [List.foldl_cons, List.foldl_nil]
    simp [readLine, tank0, cfg0, lfo0, P0, MultiLFO.process, cloudPhaseNext,
      Function.update, hread0, hread1]
  have hmix : mix P0 (readPhase P0 tank0 lfo0 (fun _ => 0)).y
      ((clampN tank0.cfg.lines : ℕ) : ℤ) tank0.cfg.matrix 0 = 0 := by
    rw [show ((clampN tank0.cfg.lines : ℕ) : ℤ) = 2 from rfl,
      show tank0.cfg.matrix = MatrixType.Householder from rfl]
    simp only [mix, householderMix]
    rw [show ((0 : ℤ) ⊔ 2 ⊓ 16) = 2 from by decide]
    rw [if_neg (show ¬ ((2 : ℤ) ≤ 1) from by decide),
      if_neg (show ¬ (MatrixType.Householder = MatrixType.Hadamard) from by decide)]
    rw [show (((1 : ℤ) ⊔ 2 ⊓ 16).toNat) = 2 from by decide]
    norm_num [Finset.sum_range_succ, hy.1, hy.2.1]
  rw [hstep, hy.2.2, hmix] at h
  norm_num at h

/-- C2 amended: the output vector processSampleVec returns to the caller
is the pre-mix vector of raw modulated delay-line reads (the same values
the read loop stores in its internal y vector); the matrix-mixed vector
is used as the basis of the feedback writeback only — each active line
pushes injection + feedback-filtered mixed sample into its delay. -/
theorem processSampleVec_output_premix (P : Prims) (s : TankState) (injV : ℕ → ℚ)
    (dec : ℚ) (lfo : MultiLFO) (y0 : ℕ → ℚ) (h : s.inited = true) :
    ((Tank.processSampleVec P s injV dec lfo y0).2.2 = (readPhase P s lfo y0).yOut) ∧
    (∀ i < clampN s.cfg.lines,
      (readPhase P s lfo y0).yOut i = (readPhase P s lfo y0).y i) ∧
    (∀ i < clampN s.cfg.lines,
      (Tank.processSampleVec P s injV dec lfo y0).1.d i
        = (s.d i).push (injV i +
            (lineFeedback P s (Tank.updateDecayGains P s (clampf dec 0 0.9995))
              (tankALP P s lfo y0)
              (mix P (readPhase P s lfo y0).y ((clampN s.cfg.lines : ℕ) : ℤ)
                s.cfg.matrix i) i).1)) := by
  refine ⟨tankStep_yOut_eq P s injV dec lfo y0 h, ?_, ?_⟩
  · intro i hi
    exact range_foldl_readLine_agree P s (clampN s.cfg.lines) _ i hi
  · intro i hi
    show (tankStep P s injV dec lfo y0).1.d i = _
    rw [tankStep, if_neg (by rw [h]; exact fun hf => Bool.noConfusion hf)]
    simp only [tankALP, if_pos hi]

/-- Witness for C2 at the concrete 2-line tank. -/
theorem processSampleVec_output_premix_witness :
    tank0.inited = true ∧
    (Tank.processSampleVec P0 tank0 (fun _ => 0) 0 lfo0 (fun _ => 0)).2.2
      = (readPhase P0 tank0 lfo0 (fun _ => 0)).yOut :=
  ⟨rfl, (processSampleVec_output_premix P0 tank0 (fun _ => 0) 0 lfo0 (fun _ => 0) rfl).1⟩

end BigPi
